import Mathlib

/-!
# Wanderlust: request validation and route handling

A shallow embedding of `schema.js`, `utils/ExpressError.js` and the route table
and handlers of `app.js`, followed by theorems about them.

JavaScript values are modelled by `JsVal`; finite numbers are exact rationals
(every IEEE double is one, and the validators only compare numbers).  What the
external libraries compute with floating point, regular expressions or
cryptography is not re-implemented: it is collected in the record `Deps`, and
the general theorems hold for every value of that record.
-/

namespace Wanderlust

/-! ## JavaScript values -/

/-- A JavaScript number: a finite value, `NaN`, `Infinity` or `-Infinity`. -/
inductive JsNum where
  | fin (q : ℚ)
  | nan
  | posInf
  | negInf

/-- A JavaScript value as found in a parsed request body. -/
inductive JsVal where
  | undefined
  | null
  | bool (b : Bool)
  | num (n : JsNum)
  | str (s : String)
  | arr (xs : List JsVal)
  | obj (kvs : List (String × JsVal))

/-- The property read `o[k]` on an object given by its entries: the first entry
with that key, `undefined` when there is none. -/
def JsVal.get (kvs : List (String × JsVal)) (k : String) : JsVal :=
  (kvs.lookup k).getD JsVal.undefined

/-- The test `v === ''`. -/
def JsVal.isEmptyStr : JsVal → Bool
  | .str s => s == ""
  | _ => false

/-- The test `v === undefined`. -/
def JsVal.isUndefined : JsVal → Bool
  | .undefined => true
  | _ => false

/-- The comparison `n >= limit` of JavaScript, for a finite `limit`. -/
def JsNum.ge (n : JsNum) (limit : ℚ) : Bool :=
  match n with
  | .fin q => decide (limit ≤ q)
  | .posInf => true
  | .negInf => false
  | .nan => false

/-- The comparison `n <= limit` of JavaScript, for a finite `limit`. -/
def JsNum.le (n : JsNum) (limit : ℚ) : Bool :=
  match n with
  | .fin q => decide (q ≤ limit)
  | .posInf => false
  | .negInf => true
  | .nan => false

/-- The comparison `n < limit` of JavaScript, for a finite `limit`. -/
def JsNum.lt (n : JsNum) (limit : ℚ) : Bool :=
  match n with
  | .fin q => decide (q < limit)
  | .posInf => false
  | .negInf => true
  | .nan => false

/-- The comparison `n > limit` of JavaScript, for a finite `limit`. -/
def JsNum.gt (n : JsNum) (limit : ℚ) : Bool :=
  match n with
  | .fin q => decide (limit < q)
  | .posInf => true
  | .negInf => false
  | .nan => false

/-! ## Documents of the persistence layer -/

/-- A stored user (`models/user.js`: `email` is required; the
passport-local-mongoose plugin adds `username` and the salted hash, kept here
as one credential). -/
structure UserDoc where
  _id : String
  username : String
  email : String
  credential : String

/-- Outcome of the number conversion of a string by the validation library. -/
inductive NumCoerce where
  | noMatch
  | imprecise
  | value (n : JsNum)

/-- Behaviour of the external libraries that is taken as given.

* `numberOfString`: the conversion of a string to a number that `Joi.number()`
  performs before validating (it parses with floating point): the string is no
  numeric literal, or it loses precision, or it converts to a number.
* `objectOfString`: the conversion of a JSON string to an object that
  `Joi.object()` performs before validating.
* `uriHierPart`: whether a string is the part of an RFC 3986 URI that follows
  `scheme:` (hierarchical part, query, fragment).
* `register`: `User.register` of passport-local-mongoose, given the stored
  users, the `email`, `username` and `password` of the body and a fresh id: the
  new user or the error's message.
* `authenticate`: the local strategy of passport, given the stored users and
  the `username` and `password` of the body: the user or the failure message.
* `castTwelve`: the ObjectId that the database driver makes of a string of 12
  UTF-16 units, if its version makes one.
* `decodeEscapes`: `decodeURIComponent` on a string whose percent signs are all
  followed by two hexadecimal digits: the decoded string, or nothing when the
  escapes are no UTF-8.
* `decodeErrorStatus`: the `statusCode` that the router's version gives the
  error of a route parameter that does not decode (400 in express 4). -/
structure Deps where
  numberOfString : String → NumCoerce
  objectOfString : String → Option (List (String × JsVal))
  uriHierPart : String → Bool
  register : List UserDoc → JsVal → JsVal → JsVal → String → Except String UserDoc
  authenticate : List UserDoc → JsVal → JsVal → Except String UserDoc
  castTwelve : String → Option String
  decodeEscapes : String → Option String
  decodeErrorStatus : Option Nat

/-! ## The validation library (`joi`) as used by `schema.js` -/

/-- The label of a value in an error message: its quoted path, `"value"` at the
root. -/
def joiLabel (path : List String) : String :=
  match path with
  | [] => "\"value\""
  | _ => "\"" ++ ".".intercalate path ++ "\""

/-- A schema: the settings the validator consults, in the order in which it
consults them (conversion, presence, allowed values, base type, rules).  Each
check returns the message of the error it raises, if any. -/
structure Schema where
  /-- Conversion of the raw value (`convert` is on by default). -/
  coerce : Deps → List String → JsVal → Except String JsVal
  /-- Whether `undefined` is an error (`.required()`) or accepted (`.optional()`, the default). -/
  isRequired : Bool
  /-- Whether the value is one of those added by `.allow(...)`. -/
  allowed : JsVal → Bool
  /-- The check of the base type. -/
  base : Deps → List String → JsVal → Option String
  /-- The rules added to the type, in order. -/
  rules : List (Deps → List String → JsVal → Option String)

/-- The first error of a list of rules. -/
def firstRuleError (D : Deps) (path : List String) (v : JsVal)
    (rules : List (Deps → List String → JsVal → Option String)) : Option String :=
  rules.findSome? (fun r => r D path v)

/-- Validation of a value against a schema: `schema.validate(v).error`, as the
message of the first error (`abortEarly` is on by default), `none` when the
value is accepted. -/
def Schema.validate (s : Schema) (D : Deps) (path : List String) (v : JsVal) : Option String :=
  match s.coerce D path v with
  | .error e => some e
  | .ok v1 =>
    if v1.isUndefined then
      if s.isRequired then some (joiLabel path ++ " is required") else none
    else if s.allowed v1 then none
    else
      (s.base D path v1).or (firstRuleError D path v1 s.rules)

/-- `.required()`. -/
def Schema.required (s : Schema) : Schema := { s with isRequired := true }

/-- `.optional()`. -/
def Schema.optional (s : Schema) : Schema := { s with isRequired := false }

/-- `.allow('')`. -/
def Schema.allowEmptyStr (s : Schema) : Schema :=
  { s with allowed := fun v => s.allowed v || v.isEmptyStr }

/-- `Joi.string()`: a string, and not the empty one. -/
def Joi.string : Schema where
  coerce := fun _ _ v => .ok v
  isRequired := false
  allowed := fun _ => false
  base := fun _ path v =>
    match v with
    | .str s => if s = "" then some (joiLabel path ++ " is not allowed to be empty") else none
    | _ => some (joiLabel path ++ " must be a string")
  rules := []

/-- The scheme of an RFC 3986 URI as the library's pattern has it: a letter,
then letters, digits and the characters from `+` to `.`. -/
def uriScheme (cs : List Char) : Bool :=
  match cs with
  | [] => false
  | c :: rest => c.isAlpha && rest.all (fun d => d.isAlphanum || (decide ('+' ≤ d) && decide (d ≤ '.')))

/-- Whether a string is a URI: a scheme, a colon (the first of the string, a
scheme has none) and what `Deps.uriHierPart` accepts. -/
def isUri (D : Deps) (s : String) : Bool :=
  match s.data.dropWhile (fun c => c != ':') with
  | [] => false
  | _ :: rest => uriScheme (s.data.takeWhile (fun c => c != ':')) && D.uriHierPart (String.mk rest)

/-- `.uri()` on a string schema. -/
def Schema.uri (s : Schema) : Schema :=
  { s with rules := s.rules ++ [fun D path v =>
      match v with
      | .str x => if isUri D x then none else some (joiLabel path ++ " must be a valid uri")
      | _ => some (joiLabel path ++ " must be a valid uri")] }

/-- `Number.MAX_SAFE_INTEGER`. -/
def MAX_SAFE_INTEGER : ℚ := 9007199254740991

/-- `Joi.number()`: numeric strings are converted; the value must then be a
number that is not `NaN`, not infinite and within the safe range. -/
def Joi.number : Schema where
  coerce := fun D path v =>
    match v with
    | .str s =>
      match D.numberOfString s with
      | .noMatch => .ok v
      | .imprecise => .error (joiLabel path ++ " must be a safe number")
      | .value n => .ok (.num n)
    | _ => .ok v
  isRequired := false
  allowed := fun _ => false
  base := fun _ path v =>
    match v with
    | .num .posInf => some (joiLabel path ++ " cannot be infinity")
    | .num .negInf => some (joiLabel path ++ " cannot be infinity")
    | .num (.fin q) =>
      if q > MAX_SAFE_INTEGER ∨ q < -MAX_SAFE_INTEGER then
        some (joiLabel path ++ " must be a safe number")
      else none
    | _ => some (joiLabel path ++ " must be a number")
  rules := []

/-- `.min(limit)` on a number schema. -/
def Schema.min (s : Schema) (limit : ℚ) (shown : String) : Schema :=
  { s with rules := s.rules ++ [fun _ path v =>
      match v with
      | .num n =>
        if n.ge limit then none
        else some (joiLabel path ++ " must be greater than or equal to " ++ shown)
      | _ => some (joiLabel path ++ " must be greater than or equal to " ++ shown)] }

/-- `.max(limit)` on a number schema. -/
def Schema.max (s : Schema) (limit : ℚ) (shown : String) : Schema :=
  { s with rules := s.rules ++ [fun _ path v =>
      match v with
      | .num n =>
        if n.le limit then none
        else some (joiLabel path ++ " must be less than or equal to " ++ shown)
      | _ => some (joiLabel path ++ " must be less than or equal to " ++ shown)] }

/-- The first error among the declared keys of an object, in declaration order. -/
def firstKeyError (D : Deps) (path : List String) (kvs : List (String × JsVal))
    (keys : List (String × Schema)) : Option String :=
  keys.findSome? (fun ks => ks.2.validate D (path ++ [ks.1]) (JsVal.get kvs ks.1))

/-- The first key of an object that the schema does not declare. -/
def firstUnknownKey (keys : List (String × Schema)) (kvs : List (String × JsVal)) : Option String :=
  (kvs.find? (fun kv => !(keys.any (fun ks => ks.1 == kv.1)))).map (fun kv => kv.1)

/-- `Joi.object({...})`: a JSON string is converted; the value must then be an
object (not an array) whose declared keys validate and which has no other key. -/
def Joi.object (keys : List (String × Schema)) : Schema where
  coerce := fun D _ v =>
    match v with
    | .str s =>
      match D.objectOfString s with
      | some kvs => .ok (.obj kvs)
      | none => .ok v
    | _ => .ok v
  isRequired := false
  allowed := fun _ => false
  base := fun D path v =>
    match v with
    | .obj kvs =>
      (firstKeyError D path kvs keys).or
        ((firstUnknownKey keys kvs).map (fun k => joiLabel (path ++ [k]) ++ " is not allowed"))
    | _ => some (joiLabel path ++ " must be of type object")
  rules := []

/-! ## `schema.js` -/

/-- The schema of a listing payload (`schema.js`, lines 7-17). -/
def listingSchema : Schema :=
  (Joi.object [
    ("title", Joi.string.required),
    ("description", Joi.string.required),
    ("price", (Joi.number.min 0 "0").required),
    ("location", Joi.string.required),
    ("country", Joi.string.required),
    ("image", (Joi.object [
      ("url", Joi.string.uri.allowEmptyStr),
      ("filename", Joi.string.allowEmptyStr)
    ]).optional)
  ]).required

/-- The schema of a review payload (`schema.js`, lines 22-25). -/
def reviewSchema : Schema :=
  (Joi.object [
    ("comment", Joi.string.required),
    ("rating", ((Joi.number.min 1 "1").max 5 "5").required)
  ]).required

/-! ## Errors (`utils/ExpressError.js`) -/

/-- A thrown value as the error handler reads it: its `statusCode` and its
`message`, each possibly unset. -/
structure JsError where
  statusCode : Option Nat
  message : Option String

/-- The class `ExpressError`: `new ExpressError(statusCode, message)` passes the
message to `Error` and stores the status code. -/
def ExpressError (statusCode : Nat) (message : String) : JsError :=
  { statusCode := some statusCode, message := some message }

/-! ## Persistence layer -/

/-- Whether a character is a lower-case hexadecimal digit. -/
def isHexDigit (c : Char) : Bool :=
  "0123456789abcdef".data.contains c

/-- Whether a character is a hexadecimal digit of either case. -/
def isHexDigitAnyCase (c : Char) : Bool :=
  isHexDigit c.toLower

/-- An identifier of the document database: 24 hexadecimal digits. -/
structure ObjectId where
  hex : String
  wf : hex.data.length = 24 ∧ hex.data.all isHexDigit = true

/-- Whether a string is 24 hexadecimal digits, of either case. -/
def isObjectIdString (s : String) : Bool :=
  decide (s.data.length = 24) && s.data.all isHexDigitAnyCase

/-- The lower-case form of a string of hexadecimal digits: how the database
writes the id that the string denotes. -/
def canonicalId (s : String) : String :=
  String.mk (s.data.map Char.toLower)

/-- The length of a string in UTF-16 units (`s.length` of JavaScript). -/
def utf16Length (s : String) : Nat :=
  (s.data.map (fun c => if c.toNat < 65536 then 1 else 2)).sum

/-- The cast of a route parameter to an ObjectId by the database driver: a
string of 24 hexadecimal digits denotes the id with those digits; a string of
12 UTF-16 units denotes an id in some versions of the driver; no other string
denotes one. -/
def castObjectId (D : Deps) (s : String) : Option String :=
  if isObjectIdString s then some (canonicalId s)
  else if utf16Length s = 12 then D.castTwelve s
  else none

/-- The `CastError` that a query by id raises for a string that denotes no
ObjectId; it has no `statusCode`. -/
def castError (value : String) : JsError :=
  { statusCode := none
    message := some ("Cast to ObjectId failed for value \"" ++ value ++
      "\" (type string) at path \"_id\" for model \"Listing\"") }

/-- The property read `v[k]` on any value: `undefined` unless `v` is an object
with that property. -/
def JsVal.prop (v : JsVal) (k : String) : JsVal :=
  match v with
  | .obj kvs => JsVal.get kvs k
  | _ => .undefined

/-- A value as a reference to a document: the id when it is a string. -/
def JsVal.asRef : JsVal → Option String
  | .str s => some s
  | _ => none

/-- A value as a list of references: the strings of an array. -/
def JsVal.asRefs : JsVal → List String
  | .arr xs => xs.filterMap JsVal.asRef
  | _ => []

/-- A stored listing: the fields of the payload as received, the references to
its reviews in order and the reference to its owner, if it has one. -/
structure ListingDoc where
  _id : String
  title : JsVal
  description : JsVal
  image : JsVal
  price : JsVal
  location : JsVal
  country : JsVal
  reviews : List String
  owner : Option String

/-- A stored review. -/
structure ReviewDoc where
  _id : String
  comment : JsVal
  rating : JsVal

/-- The collections of the database. -/
structure Store where
  users : List UserDoc
  listings : List ListingDoc
  reviews : List ReviewDoc

/-- Modelled from the spec: `models/listing.js` is not among the sources.  A
Listing has title, description, price, location, country, an optional image,
a reference to its owner and an ordered collection of review references;
`new Listing(v)` takes each of them from the property of that name of `v` and
is given a fresh id. -/
def Listing.new (oid : ObjectId) (v : JsVal) : ListingDoc :=
  { _id := oid.hex
    title := v.prop "title"
    description := v.prop "description"
    image := v.prop "image"
    price := v.prop "price"
    location := v.prop "location"
    country := v.prop "country"
    reviews := (v.prop "reviews").asRefs
    owner := (v.prop "owner").asRef }

/-- Modelled from the spec: `models/reviews.js` is not among the sources.  A
Review has a comment and a rating; `new Review(v)` takes them from `v` and is
given a fresh id. -/
def Review.new (oid : ObjectId) (v : JsVal) : ReviewDoc :=
  { _id := oid.hex
    comment := v.prop "comment"
    rating := v.prop "rating" }

/-- `Listing.findById(id)`: a `CastError` when the string denotes no ObjectId,
otherwise the first stored listing with the id it denotes, if any. -/
def Listing.findById (D : Deps) (db : Store) (id : String) : Except JsError (Option ListingDoc) :=
  match castObjectId D id with
  | none => .error (castError id)
  | some oid => .ok (db.listings.find? (fun l => l._id == oid))

/-- A field after an update: the update's property when it has one. -/
def JsVal.orKeep (new old : JsVal) : JsVal :=
  if new.isUndefined then old else new

/-- Modelled from the spec: the update of a Listing by a payload sets the
fields that the payload has and keeps the others. -/
def Listing.assign (l : ListingDoc) (v : JsVal) : ListingDoc :=
  { _id := l._id
    title := (v.prop "title").orKeep l.title
    description := (v.prop "description").orKeep l.description
    image := (v.prop "image").orKeep l.image
    price := (v.prop "price").orKeep l.price
    location := (v.prop "location").orKeep l.location
    country := (v.prop "country").orKeep l.country
    reviews := if (v.prop "reviews").isUndefined then l.reviews else (v.prop "reviews").asRefs
    owner := if (v.prop "owner").isUndefined then l.owner else (v.prop "owner").asRef }

/-- Replaces the first listing with the given id by its image under `f`. -/
def updateFirst (id : String) (f : ListingDoc → ListingDoc) : List ListingDoc → List ListingDoc
  | [] => []
  | l :: ls => if l._id == id then f l :: ls else l :: updateFirst id f ls

/-- Removes the first listing with the given id. -/
def removeFirst (id : String) : List ListingDoc → List ListingDoc
  | [] => []
  | l :: ls => if l._id == id then ls else l :: removeFirst id ls

/-- `Listing.findByIdAndUpdate(id, v)`: a `CastError` when the string denotes no
ObjectId; otherwise it updates the first listing with the id it denotes, and
nothing happens when there is none. -/
def Listing.findByIdAndUpdate (D : Deps) (db : Store) (id : String) (v : JsVal) :
    Except JsError Store :=
  match castObjectId D id with
  | none => .error (castError id)
  | some oid =>
    .ok { db with listings := updateFirst oid (fun l => Listing.assign l v) db.listings }

/-- `Listing.findByIdAndDelete(id)`: a `CastError` when the string denotes no
ObjectId; otherwise it deletes the first listing with the id it denotes, and
nothing happens when there is none. -/
def Listing.findByIdAndDelete (D : Deps) (db : Store) (id : String) : Except JsError Store :=
  match castObjectId D id with
  | none => .error (castError id)
  | some oid => .ok { db with listings := removeFirst oid db.listings }

/-- `listing.save()` of a new listing. -/
def Listing.insert (db : Store) (l : ListingDoc) : Store :=
  { db with listings := db.listings ++ [l] }

/-- `review.save()` of a new review. -/
def Review.insert (db : Store) (r : ReviewDoc) : Store :=
  { db with reviews := db.reviews ++ [r] }

/-- `listing.save()` of a listing read from the store. -/
def Listing.save (db : Store) (l : ListingDoc) : Store :=
  { db with listings := updateFirst l._id (fun _ => l) db.listings }

/-- A listing with its references resolved (`.populate("reviews")`,
`.populate("owner")`): the reviews that exist, in order, and the owner if it
exists. -/
structure ShownListing where
  listing : ListingDoc
  reviews : List ReviewDoc
  owner : Option UserDoc

/-- Resolution of the references of a listing. -/
def populate (db : Store) (l : ListingDoc) : ShownListing :=
  { listing := l
    reviews := l.reviews.filterMap (fun r => db.reviews.find? (fun d => d._id == r))
    owner := l.owner.bind (fun o => db.users.find? (fun u => u._id == o)) }

/-! ## Requests, sessions and replies -/

/-- The HTTP methods of the route table (after `methodOverride("_method")`). -/
inductive Method where
  | GET | POST | PUT | DELETE
  deriving DecidableEq

/-- A request: its method, the segments of its path as the client wrote them,
split at the slashes after the first (`/listings/7/edit` is
`["listings", "7", "edit"]`, `/listings/` is `["listings", ""]`), and its body
as `express.urlencoded` parsed it. -/
structure Request where
  method : Method
  path : List String
  body : List (String × JsVal)

/-- The session of the client: the id of the logged-in user, if any, and the
pending flash messages, each with its type. -/
structure Session where
  user : Option String
  flash : List (String × String)

/-- The state a request runs in: the database and the client's session. -/
structure State where
  db : Store
  session : Session

/-- `req.flash(type, message)`. -/
def State.flash (st : State) (type message : String) : State :=
  { st with session := { st.session with flash := st.session.flash ++ [(type, message)] } }

/-- The values every view receives (`res.locals`, `app.js` lines 77-82). -/
structure Locals where
  currentUser : Option String
  success : List String
  error : List String

/-- The views and the data they are rendered with. -/
inductive View where
  | signup
  | login
  | index (allListings : List ListingDoc)
  | new
  | show (listing : ShownListing)
  | edit (listing : ListingDoc)
  | error (err : JsError)

/-- A response: a rendered view with its status, or a redirect. -/
inductive Reply where
  | render (status : Nat) (view : View) (locals : Locals)
  | redirect (location : String)

/-- The status code of a response (`res.render` sends 200 unless `res.status`
was called, `res.redirect` sends 302). -/
def Reply.status : Reply → Nat
  | .render status _ _ => status
  | .redirect _ => 302

/-- What a middleware or handler does: it calls `next()`, it throws or calls
`next(err)`, or it sends the response. -/
inductive Step where
  | next (st : State)
  | fail (err : JsError) (st : State)
  | reply (r : Reply) (st : State)

/-- The middleware of `app.js` lines 77-82: it reads (and thereby clears) the
`success` and `error` flash messages into `res.locals`. -/
def localsMiddleware (st : State) : Locals × State :=
  ({ currentUser := st.session.user
     success := (st.session.flash.filter (fun m => m.1 == "success")).map (fun m => m.2)
     error := (st.session.flash.filter (fun m => m.1 == "error")).map (fun m => m.2) },
   { st with session := { st.session with
      flash := st.session.flash.filter (fun m => !(m.1 == "success") && !(m.1 == "error")) } })

/-! ## Middleware of `app.js` -/

/-- The middleware `validateListing` (`app.js` lines 85-90). -/
def validateListing (D : Deps) (req : Request) (st : State) : Step :=
  match listingSchema.validate D [] (JsVal.get req.body "listing") with
  | some message => .fail (ExpressError 400 message) st
  | none => .next st

/-- The middleware `validateReview` (`app.js` lines 92-96). -/
def validateReview (D : Deps) (req : Request) (st : State) : Step :=
  match reviewSchema.validate D [] (JsVal.get req.body "review") with
  | some message => .fail (ExpressError 400 message) st
  | none => .next st

/-- Modelled from the spec: `middleware.js` (`isLoggedIn`) is not among the
sources.  The guard redirects to the login page with the flash "please login
first" when the request has no authenticated session, and otherwise passes
the request through unchanged. -/
def isLoggedIn (st : State) : Step :=
  match st.session.user with
  | some _ => .next st
  | none => .reply (.redirect "/login") (st.flash "error" "please login first")

/-- The middleware `passport.authenticate("local", ...)` of `POST /login`, with
`failureRedirect: "/login"` and `failureFlash: true`. -/
def passportAuthenticate (D : Deps) (req : Request) (st : State) : Step :=
  match D.authenticate st.db.users (JsVal.get req.body "username") (JsVal.get req.body "password") with
  | .ok u => .next { st with session := { st.session with user := some u._id } }
  | .error message => .reply (.redirect "/login") (st.flash "error" message)

/-! ## Route handlers of `app.js` -/

/-- The parameters of a matched route. -/
abbrev Params := List (String × String)

/-- The parameter `req.params.id`. -/
def Params.id (params : Params) : String :=
  (params.lookup "id").getD ""

/-- The handlers of the route table, by name. -/
inductive Handler where
  | signupForm | signup | loginForm | login | logout
  | index | newForm | create | show | editForm | update | destroy
  | createReview
  deriving DecidableEq

/-- The body of a handler (`app.js` lines 101-226).  A query by id fails when
its parameter denotes no ObjectId; the other calls to the database and
`req.logout` are taken to succeed. -/
def Handler.run (h : Handler) (D : Deps) (oid : ObjectId) (locals : Locals)
    (req : Request) (params : Params) (st : State) : Step :=
  match h with
  | .signupForm => .reply (.render 200 .signup locals) st
  | .signup =>
    match D.register st.db.users (JsVal.get req.body "email") (JsVal.get req.body "username")
        (JsVal.get req.body "password") oid.hex with
    | .ok u =>
      .reply (.redirect "/login")
        ({ st with db := { st.db with users := st.db.users ++ [u] } }.flash
          "success" "Welcome to Wanderlust")
    | .error message => .reply (.redirect "/signup") (st.flash "error" message)
  | .loginForm => .reply (.render 200 .login locals) st
  | .login =>
    .reply (.redirect "/listings")
      (st.flash "success" "Welcome to Wanderlust. You are now logged in")
  | .logout =>
    .reply (.redirect "/listings")
      ({ st with session := { st.session with user := none } }.flash
        "success" "You are now logged out")
  | .index => .reply (.render 200 (.index st.db.listings) locals) st
  | .newForm => .reply (.render 200 .new locals) st
  | .create =>
    let newListing := Listing.new oid (JsVal.get req.body "listing")
    .reply (.redirect "/listings")
      ({ st with db := Listing.insert st.db newListing }.flash
        "success" "Successfully created a new listing!")
  | .show =>
    match Listing.findById D st.db params.id with
    | .error err => .fail err st
    | .ok none => .fail (ExpressError 404 "Listing not found") st
    | .ok (some listing) => .reply (.render 200 (.show (populate st.db listing)) locals) st
  | .editForm =>
    match Listing.findById D st.db params.id with
    | .error err => .fail err st
    | .ok none => .fail (ExpressError 404 "Listing not found") st
    | .ok (some listing) => .reply (.render 200 (.edit listing) locals) st
  | .update =>
    match Listing.findByIdAndUpdate D st.db params.id (JsVal.get req.body "listing") with
    | .error err => .fail err st
    | .ok db =>
      .reply (.redirect ("/listings/" ++ params.id))
        ({ st with db := db }.flash "success" "Listing is successfully updated")
  | .destroy =>
    match Listing.findByIdAndDelete D st.db params.id with
    | .error err => .fail err st
    | .ok db =>
      .reply (.redirect "/listings")
        ({ st with db := db }.flash "success" "Listing is successfully deleted")
  | .createReview =>
    match Listing.findById D st.db params.id with
    | .error err => .fail err st
    | .ok none =>
      .fail { statusCode := none
              message := some "Cannot read properties of null (reading 'reviews')" } st
    | .ok (some listing) =>
      let review := Review.new oid (JsVal.get req.body "review")
      let listing1 := { listing with reviews := listing.reviews ++ [review._id] }
      .reply (.redirect ("/listings/" ++ listing1._id))
        { st with db := Listing.save (Review.insert st.db review) listing1 }

/-- Modelled from the spec: `utils/wrapAsync.js` is not among the sources.  A
handler error, thrown synchronously or from a failed asynchronous step, is
passed on to the error handler; the wrapper changes nothing else. -/
def wrapAsync (fn : Request → Params → State → Step) : Request → Params → State → Step :=
  fun req params st => fn req params st

/-! ## The route table of `app.js` -/

/-- The entries of a route's middleware stack. -/
inductive Middleware where
  | isLoggedIn
  | validateListing
  | validateReview
  | passportAuthenticate
  | wrapAsync (h : Handler)
  | plain (h : Handler)
  deriving DecidableEq

/-- A segment of a route's path: a literal or a parameter. -/
inductive Seg where
  | lit (s : String)
  | param (name : String)
  deriving DecidableEq

/-- A route: method, path pattern and middleware stack. -/
structure Route where
  method : Method
  pattern : List Seg
  stack : List Middleware
  deriving DecidableEq

/-- The routes of `app.js` (lines 101-226), in the order of their registration. -/
def routes : List Route :=
  [ ⟨.GET, [.lit "signup"], [.plain .signupForm]⟩,
    ⟨.POST, [.lit "signup"], [.wrapAsync .signup]⟩,
    ⟨.GET, [.lit "login"], [.plain .loginForm]⟩,
    ⟨.POST, [.lit "login"], [.passportAuthenticate, .plain .login]⟩,
    ⟨.POST, [.lit "logout"], [.plain .logout]⟩,
    ⟨.GET, [.lit "listings"], [.wrapAsync .index]⟩,
    ⟨.GET, [.lit "listings", .lit "new"], [.isLoggedIn, .plain .newForm]⟩,
    ⟨.POST, [.lit "listings"], [.isLoggedIn, .validateListing, .wrapAsync .create]⟩,
    ⟨.GET, [.lit "listings", .param "id"], [.wrapAsync .show]⟩,
    ⟨.GET, [.lit "listings", .param "id", .lit "edit"], [.isLoggedIn, .wrapAsync .editForm]⟩,
    ⟨.PUT, [.lit "listings", .param "id"], [.isLoggedIn, .validateListing, .wrapAsync .update]⟩,
    ⟨.DELETE, [.lit "listings", .param "id"], [.isLoggedIn, .wrapAsync .destroy]⟩,
    ⟨.POST, [.lit "listings", .param "id", .lit "reviews"], [.validateReview, .wrapAsync .createReview]⟩ ]

/-- Whether a segment of a path is a literal of a pattern: the case of letters
is ignored (`case sensitive routing` is off). -/
def sameSegment (s x : String) : Bool :=
  s.data.map Char.toLower == x.data.map Char.toLower

/-- Matching of a path against a pattern: the parameters it binds, as written
in the path.  A literal matches whatever its case, a parameter matches a
non-empty segment, and one trailing slash is ignored (`strict routing` is
off). -/
def matchPath : List Seg → List String → Option Params
  | [], [] => some []
  | [], [x] => if x = "" then some [] else none
  | [], _ => none
  | .lit s :: segs, x :: xs => if sameSegment s x then matchPath segs xs else none
  | .param name :: segs, x :: xs =>
    if x = "" then none else (matchPath segs xs).map (fun ps => (name, x) :: ps)
  | _ :: _, [] => none

/-- Whether every percent sign of a string is followed by two hexadecimal
digits. -/
def wellFormedEscapes : List Char → Bool
  | [] => true
  | c :: rest =>
    if c = '%' then
      (match rest with
        | a :: b :: _ => isHexDigitAnyCase a && isHexDigitAnyCase b
        | _ => false) && wellFormedEscapes rest
    else wellFormedEscapes rest

/-- The decoding of a route parameter (`decodeURIComponent`): a string without
percent sign is its own decoding, and a percent sign that is not followed by
two hexadecimal digits makes the decoding fail. -/
def decodeParam (D : Deps) (val : String) : Option String :=
  if val.data.contains '%' then
    if wellFormedEscapes val.data then D.decodeEscapes val else none
  else some val

/-- The error of the router for a route parameter that does not decode. -/
def decodeError (D : Deps) (val : String) : JsError :=
  { statusCode := D.decodeErrorStatus
    message := some ("Failed to decode param '" ++ val ++ "'") }

/-- The decoding of the parameters of a matched route, in order. -/
def decodeParams (D : Deps) : Params → Except JsError Params
  | [] => .ok []
  | (name, val) :: rest =>
    match decodeParam D val with
    | none => .error (decodeError D val)
    | some v =>
      match decodeParams D rest with
      | .error err => .error err
      | .ok ps => .ok ((name, v) :: ps)

/-- One entry of a middleware stack, run. -/
def Middleware.run (m : Middleware) (D : Deps) (oid : ObjectId) (locals : Locals)
    (req : Request) (params : Params) (st : State) : Step :=
  match m with
  | .isLoggedIn => Wanderlust.isLoggedIn st
  | .validateListing => Wanderlust.validateListing D req st
  | .validateReview => Wanderlust.validateReview D req st
  | .passportAuthenticate => Wanderlust.passportAuthenticate D req st
  | .wrapAsync h => Wanderlust.wrapAsync (h.run D oid locals) req params st
  | .plain h => h.run D oid locals req params st

/-- A middleware stack, run in order: the first entry that does not call
`next()` ends it. -/
def runStack (D : Deps) (oid : ObjectId) (locals : Locals) (req : Request) (params : Params) :
    List Middleware → State → Step
  | [], st => .next st
  | m :: ms, st =>
    match m.run D oid locals req params st with
    | .next st1 => runStack D oid locals req params ms st1
    | r => r

/-- What the router arrives at: a response or an error. -/
inductive Outcome where
  | fail (err : JsError) (st : State)
  | reply (r : Reply) (st : State)

/-- The router: the routes are tried in order.  The path is matched and the
parameters decoded before the method is looked at; a parameter that does not
decode is an error, which the remaining routes and the 404 handler pass on to
the error handler.  A request that no route answers reaches the 404 handler
(`app.js` lines 229-231). -/
def dispatch (D : Deps) (oid : ObjectId) (locals : Locals) (req : Request) :
    List Route → State → Outcome
  | [], st => .fail (ExpressError 404 "Page Not Found") st
  | r :: rs, st =>
    match matchPath r.pattern req.path with
    | none => dispatch D oid locals req rs st
    | some raw =>
      match decodeParams D raw with
      | .error err => .fail err st
      | .ok params =>
        if r.method = req.method then
          match runStack D oid locals req params r.stack st with
          | .next st1 => dispatch D oid locals req rs st1
          | .fail err st1 => .fail err st1
          | .reply rep st1 => .reply rep st1
        else dispatch D oid locals req rs st

/-- The error handler (`app.js` lines 234-238). -/
def errorHandler (err : JsError) (locals : Locals) : Reply :=
  let statusCode := err.statusCode.getD 500
  let message :=
    match err.message with
    | some m => if m = "" then "Something went wrong!" else m
    | none => "Something went wrong!"
  .render statusCode (.error { err with message := some message }) locals

/-- The application, from the middleware of `app.js` lines 77-82 on: one
request that `express.static` has not answered, from the state before it to the
response and the state after it.  `oid` is the id given to the document that
the request creates, if it creates one. -/
def app (D : Deps) (oid : ObjectId) (req : Request) (st : State) : Reply × State :=
  let (locals, st0) := localsMiddleware st
  match dispatch D oid locals req routes st0 with
  | .reply r st1 => (r, st1)
  | .fail err st1 => (errorHandler err locals, st1)

/-! ## Vocabulary of the statements -/

/-- A non-empty string. -/
def nonEmptyStr (v : JsVal) : Prop := ∃ s, v = .str s ∧ s ≠ ""

/-- The number a value stands for once the library has converted it: the value
itself when it is a number, the conversion of a string when it has one. -/
def numberOf (D : Deps) : JsVal → Option JsNum
  | .num n => some n
  | .str s =>
    match D.numberOfString s with
    | .value n => some n
    | _ => none
  | _ => none

/-- The object a value stands for once the library has converted it: the value
itself when it is an object, the conversion of a string when it has one. -/
def objectOf (D : Deps) : JsVal → Option (List (String × JsVal))
  | .obj kvs => some kvs
  | .str s => D.objectOfString s
  | _ => none

/-- Every key of the object is among the given ones. -/
def onlyKeys (allowed : List String) (kvs : List (String × JsVal)) : Prop :=
  ∀ kv ∈ kvs, kv.1 ∈ allowed

/-- A price that `listingSchema` accepts: a finite number, possibly converted
from a string, that is at least 0 and within the safe range. -/
def priceOk (D : Deps) (v : JsVal) : Prop :=
  ∃ q, numberOf D v = some (.fin q) ∧ 0 ≤ q ∧ q ≤ MAX_SAFE_INTEGER

/-- An image that `listingSchema` accepts: absent, or an object whose `url`,
when present, is the empty string or a URI and whose `filename`, when present,
is a string. -/
def imageOk (D : Deps) (v : JsVal) : Prop :=
  v = .undefined ∨ ∃ kvs, objectOf D v = some kvs ∧
    (JsVal.get kvs "url" = .undefined ∨
      ∃ s, JsVal.get kvs "url" = .str s ∧ (s = "" ∨ isUri D s = true)) ∧
    (JsVal.get kvs "filename" = .undefined ∨ ∃ s, JsVal.get kvs "filename" = .str s)

/-- The fields of a listing payload that `listingSchema` accepts. -/
def listingOk (D : Deps) (p : List (String × JsVal)) : Prop :=
  nonEmptyStr (JsVal.get p "title") ∧ nonEmptyStr (JsVal.get p "description") ∧
  priceOk D (JsVal.get p "price") ∧
  nonEmptyStr (JsVal.get p "location") ∧ nonEmptyStr (JsVal.get p "country") ∧
  imageOk D (JsVal.get p "image")

/-- A rating that `reviewSchema` accepts: a finite number, possibly converted
from a string, between 1 and 5. -/
def ratingOk (D : Deps) (v : JsVal) : Prop :=
  ∃ q, numberOf D v = some (.fin q) ∧ 1 ≤ q ∧ q ≤ 5

/-- The fields of a review payload that `reviewSchema` accepts. -/
def reviewOk (D : Deps) (r : List (String × JsVal)) : Prop :=
  nonEmptyStr (JsVal.get r "comment") ∧ ratingOk D (JsVal.get r "rating")

/-- The acceptance condition of a listing payload in the words of the
specification: title, description, location and country are non-empty strings,
price is a number that is at least 0, and image is absent or an object whose
url and filename, when present, are strings. -/
def specListingOk (p : List (String × JsVal)) : Prop :=
  nonEmptyStr (JsVal.get p "title") ∧ nonEmptyStr (JsVal.get p "description") ∧
  (∃ n, JsVal.get p "price" = .num n ∧ n.ge 0 = true) ∧
  nonEmptyStr (JsVal.get p "location") ∧ nonEmptyStr (JsVal.get p "country") ∧
  (JsVal.get p "image" = .undefined ∨ ∃ kvs, JsVal.get p "image" = .obj kvs ∧
    (JsVal.get kvs "url" = .undefined ∨ ∃ s, JsVal.get kvs "url" = .str s) ∧
    (JsVal.get kvs "filename" = .undefined ∨ ∃ s, JsVal.get kvs "filename" = .str s))

/-- The acceptance condition of a review payload in the words of the
specification: comment is a non-empty string and rating is an integer between
1 and 5. -/
def specReviewOk (r : List (String × JsVal)) : Prop :=
  nonEmptyStr (JsVal.get r "comment") ∧
  ∃ z : ℤ, JsVal.get r "rating" = .num (.fin z) ∧ 1 ≤ z ∧ z ≤ 5

/-- The method and path pattern of a route. -/
def Route.key (r : Route) : Method × List Seg := (r.method, r.pattern)

/-- The routes that the interface table of the specification marks with the
guard "session". -/
def specSessionRoutes : List (Method × List Seg) :=
  [ (.POST, [.lit "logout"]),
    (.GET, [.lit "listings", .lit "new"]),
    (.POST, [.lit "listings"]),
    (.GET, [.lit "listings", .param "id", .lit "edit"]),
    (.PUT, [.lit "listings", .param "id"]),
    (.DELETE, [.lit "listings", .param "id"]) ]

/-- The routes that the interface table of the specification marks with the
guard "none". -/
def specOpenRoutes : List (Method × List Seg) :=
  [ (.GET, [.lit "signup"]),
    (.POST, [.lit "signup"]),
    (.GET, [.lit "login"]),
    (.POST, [.lit "login"]),
    (.GET, [.lit "listings"]),
    (.GET, [.lit "listings", .param "id"]),
    (.POST, [.lit "listings", .param "id", .lit "reviews"]) ]

/-- The message of the error page of a response, if it is one. -/
def Reply.errorMessage : Reply → Option String
  | .render _ (.error err) _ => err.message
  | _ => none

/-- Whether a response renders a listing's page or its edit form. -/
def Reply.showsListing : Reply → Bool
  | .render _ (.show _) _ => true
  | .render _ (.edit _) _ => true
  | _ => false

/-- Whether some route of the table has the method and matches the path of the
request. -/
def matchesRoute (req : Request) : Bool :=
  routes.any (fun r => decide (r.method = req.method) && (matchPath r.pattern req.path).isSome)

/-- Whether every segment of the path of the request decodes as a route
parameter. -/
def pathDecodes (D : Deps) (req : Request) : Prop :=
  ∀ x ∈ req.path, decodeParam D x ≠ none

/-! ## Concrete data for the examples -/

/-- The number that a non-empty string of decimal digits writes. -/
def decimalValue (cs : List Char) : Option Nat :=
  if cs ≠ [] ∧ cs.all Char.isDigit then
    some (cs.foldl (fun n c => 10 * n + (c.toNat - 48)) 0)
  else none

/-- Libraries that convert the strings of decimal digits to numbers and no
other string, and that know no user. -/
def sampleDeps : Deps where
  numberOfString := fun s =>
    match decimalValue s.data with
    | some n => .value (.fin n)
    | none => .noMatch
  objectOfString := fun _ => none
  uriHierPart := fun _ => true
  register := fun _ _ _ _ _ => .error "No username was given"
  authenticate := fun _ _ _ => .error "Password or username is incorrect"
  castTwelve := fun _ => none
  decodeEscapes := fun _ => none
  decodeErrorStatus := some 400

/-- An id. -/
def sampleId : ObjectId := ⟨"64b7f0c2a1d3e4f5a6b7c8d9", by decide⟩

/-- Another id. -/
def otherId : ObjectId := ⟨"64b7f0c2a1d3e4f5a6b7c8da", by decide⟩

/-- A listing payload with a price of 100 and no image. -/
def villa : List (String × JsVal) :=
  [ ("title", .str "Villa"), ("description", .str "Sea view"), ("price", .num (.fin 100)),
    ("location", .str "Goa"), ("country", .str "India") ]

/-- The payload `villa` with an image whose url is no URI. -/
def villaBadUrl : List (String × JsVal) :=
  villa ++ [("image", .obj [("url", .str "abc")])]

/-- A review payload with the rating 2.5. -/
def halfStarReview : List (String × JsVal) :=
  [ ("comment", .str "Nice"), ("rating", .num (.fin (5 / 2))) ]

/-- A review payload with the rating 4. -/
def goodReview : List (String × JsVal) :=
  [ ("comment", .str "Nice"), ("rating", .num (.fin 4)) ]

/-- A review payload with the rating 6, as a form submits it. -/
def sixStarReview : List (String × JsVal) :=
  [ ("comment", .str "Nice"), ("rating", .str "6") ]

/-- A stored listing with the id `sampleId`. -/
def cabin : ListingDoc :=
  { _id := sampleId.hex, title := .str "Cabin", description := .str "Woods",
    image := .undefined, price := .num (.fin 80), location := .str "Oslo",
    country := .str "Norway", reviews := [], owner := none }

/-- A state with an empty database and the given session user. -/
def emptyState (user : Option String) : State :=
  { db := { users := [], listings := [], reviews := [] }, session := { user := user, flash := [] } }

/-- A state whose database holds the listing `cabin`, with the given session user. -/
def cabinState (user : Option String) : State :=
  { db := { users := [], listings := [cabin], reviews := [] },
    session := { user := user, flash := [] } }


/-! ## Lemmas on the validation library -/

theorem string_required_iff (D : Deps) (path : List String) (v : JsVal) :
    Joi.string.required.validate D path v = none ↔ nonEmptyStr v := by
  cases v <;> simp [Schema.validate, Schema.required, Joi.string, JsVal.isUndefined,
    firstRuleError, nonEmptyStr]

theorem filename_iff (D : Deps) (path : List String) (v : JsVal) :
    Joi.string.allowEmptyStr.validate D path v = none ↔ v = .undefined ∨ ∃ s, v = .str s := by
  cases v <;> simp [Schema.validate, Schema.allowEmptyStr, Joi.string, JsVal.isUndefined,
    firstRuleError, JsVal.isEmptyStr]

theorem url_iff (D : Deps) (path : List String) (v : JsVal) :
    Joi.string.uri.allowEmptyStr.validate D path v = none ↔
      v = .undefined ∨ ∃ s, v = .str s ∧ (s = "" ∨ isUri D s = true) := by
  cases v <;> simp [Schema.validate, Schema.allowEmptyStr, Schema.uri, Joi.string,
    JsVal.isUndefined, firstRuleError, JsVal.isEmptyStr]
  rename_i s
  by_cases h : s = "" <;> simp [h]

theorem safe_of_le (q lo : ℚ) (hlo : 0 ≤ lo) (h1 : lo ≤ q) : -MAX_SAFE_INTEGER ≤ q := by
  unfold MAX_SAFE_INTEGER
  linarith

theorem price_iff (D : Deps) (path : List String) (v : JsVal) :
    ((Joi.number.min 0 "0").required).validate D path v = none ↔ priceOk D v := by
  unfold priceOk
  cases v
  case num n =>
    cases n <;> simp [Schema.validate, Schema.required, Schema.min, Joi.number,
      JsVal.isUndefined, firstRuleError, numberOf, JsNum.ge]
    constructor
    · rintro ⟨⟨h1, _⟩, h2⟩; exact ⟨h2, h1⟩
    · rintro ⟨h1, h2⟩; exact ⟨⟨h2, safe_of_le _ 0 le_rfl h1⟩, h1⟩
  case str s =>
    simp only [Schema.validate, Schema.required, Schema.min, Joi.number, numberOf]
    cases h : D.numberOfString s
    · simp [JsVal.isUndefined]
    · simp
    · rename_i n
      cases n <;> simp [JsVal.isUndefined, firstRuleError, JsNum.ge]
      constructor
      · rintro ⟨⟨h1, _⟩, h2⟩; exact ⟨h2, h1⟩
      · rintro ⟨h1, h2⟩; exact ⟨⟨h2, safe_of_le _ 0 le_rfl h1⟩, h1⟩
  all_goals simp [Schema.validate, Schema.required, Schema.min, Joi.number, JsVal.isUndefined,
      firstRuleError, numberOf]

theorem rating_iff (D : Deps) (path : List String) (v : JsVal) :
    (((Joi.number.min 1 "1").max 5 "5").required).validate D path v = none ↔ ratingOk D v := by
  unfold ratingOk
  cases v
  case num n =>
    cases n <;> simp [Schema.validate, Schema.required, Schema.min, Schema.max, Joi.number,
      JsVal.isUndefined, firstRuleError, numberOf, JsNum.ge, JsNum.le]
    intro h1 h2
    exact ⟨by unfold MAX_SAFE_INTEGER; linarith, safe_of_le _ 1 zero_le_one h1⟩
  case str s =>
    simp only [Schema.validate, Schema.required, Schema.min, Schema.max, Joi.number, numberOf]
    cases h : D.numberOfString s
    · simp [JsVal.isUndefined]
    · simp
    · rename_i n
      cases n <;> simp [JsVal.isUndefined, firstRuleError, JsNum.ge, JsNum.le]
      intro h1 h2
      exact ⟨by unfold MAX_SAFE_INTEGER; linarith, safe_of_le _ 1 zero_le_one h1⟩
  all_goals simp [Schema.validate, Schema.required, Schema.min, Schema.max, Joi.number,
      JsVal.isUndefined, firstRuleError, numberOf]

theorem firstUnknownKey_eq_none (keys : List (String × Schema)) (kvs : List (String × JsVal)) :
    firstUnknownKey keys kvs = none ↔ ∀ kv ∈ kvs, kv.1 ∈ keys.map Prod.fst := by
  simp [firstUnknownKey, List.find?_eq_none]

theorem object_validate_iff (D : Deps) (path : List String) (keys : List (String × Schema))
    (r : Bool) (v : JsVal) :
    ({ Joi.object keys with isRequired := r } : Schema).validate D path v = none ↔
      (v = .undefined ∧ r = false) ∨
      ∃ kvs, objectOf D v = some kvs ∧
        (∀ ks ∈ keys, ks.2.validate D (path ++ [ks.1]) (JsVal.get kvs ks.1) = none) ∧
        ∀ kv ∈ kvs, kv.1 ∈ keys.map Prod.fst := by
  simp only [← firstUnknownKey_eq_none]
  conv_lhs => unfold Schema.validate
  cases v
  case str s =>
    simp only [Joi.object, objectOf]
    cases h : D.objectOfString s <;>
      simp [JsVal.isUndefined, firstRuleError, firstKeyError, List.findSome?_eq_none_iff]
  all_goals simp [Joi.object, objectOf, JsVal.isUndefined, firstRuleError,
    firstKeyError, List.findSome?_eq_none_iff]

theorem object_required_iff (D : Deps) (path : List String) (keys : List (String × Schema))
    (v : JsVal) :
    (Joi.object keys).required.validate D path v = none ↔
      ∃ kvs, objectOf D v = some kvs ∧
        (∀ ks ∈ keys, ks.2.validate D (path ++ [ks.1]) (JsVal.get kvs ks.1) = none) ∧
        ∀ kv ∈ kvs, kv.1 ∈ keys.map Prod.fst := by
  have h := object_validate_iff D path keys true v
  simpa [Schema.required] using h

theorem object_optional_iff (D : Deps) (path : List String) (keys : List (String × Schema))
    (v : JsVal) :
    (Joi.object keys).optional.validate D path v = none ↔
      v = .undefined ∨ ∃ kvs, objectOf D v = some kvs ∧
        (∀ ks ∈ keys, ks.2.validate D (path ++ [ks.1]) (JsVal.get kvs ks.1) = none) ∧
        ∀ kv ∈ kvs, kv.1 ∈ keys.map Prod.fst := by
  have h := object_validate_iff D path keys false v
  simpa [Schema.optional] using h

/-- What `listingSchema` accepts, for any value: an object (possibly converted
from a string) with acceptable fields and no key besides the declared ones. -/
theorem listingSchema_validate_iff (D : Deps) (v : JsVal) :
    listingSchema.validate D [] v = none ↔
      ∃ p, objectOf D v = some p ∧ listingOk D p ∧
        onlyKeys ["title", "description", "price", "location", "country", "image"] p ∧
        ∀ kvs, objectOf D (JsVal.get p "image") = some kvs → onlyKeys ["url", "filename"] kvs := by
  unfold listingSchema
  rw [object_required_iff]
  simp only [List.forall_mem_cons, List.not_mem_nil, false_implies, implies_true, and_true]
  simp only [string_required_iff, price_iff, object_optional_iff]
  simp only [List.forall_mem_cons,
    List.not_mem_nil, false_implies, implies_true, and_true, url_iff, filename_iff]
  unfold listingOk imageOk
  constructor
  · rintro ⟨p, hp, ⟨h1, h2, h3, h4, h5, h6⟩, hk⟩
    refine ⟨p, hp, ⟨h1, h2, h3, h4, h5, ?_⟩, ?_, ?_⟩
    · rcases h6 with h6 | ⟨kvs, hk, hu, _⟩
      · exact Or.inl h6
      · exact Or.inr ⟨kvs, hk, hu⟩
    · simpa [onlyKeys] using hk
    · intro kvs hkvs
      rcases h6 with h6 | ⟨kvs1, hk1, _, hk2⟩
      · rw [h6] at hkvs; simp [objectOf] at hkvs
      · rw [hk1] at hkvs
        cases hkvs
        simpa [onlyKeys] using hk2
  · rintro ⟨p, hp, ⟨h1, h2, h3, h4, h5, h6⟩, hk, hi⟩
    refine ⟨p, hp, ⟨h1, h2, h3, h4, h5, ?_⟩, ?_⟩
    · rcases h6 with h6 | ⟨kvs, hk, hu⟩
      · exact Or.inl h6
      · exact Or.inr ⟨kvs, hk, hu, by simpa [onlyKeys] using hi kvs hk⟩
    · simpa [onlyKeys] using hk

/-- What `reviewSchema` accepts, for any value. -/
theorem reviewSchema_validate_iff (D : Deps) (v : JsVal) :
    reviewSchema.validate D [] v = none ↔
      ∃ r, objectOf D v = some r ∧ reviewOk D r ∧ onlyKeys ["comment", "rating"] r := by
  unfold reviewSchema
  rw [object_required_iff]
  simp only [List.forall_mem_cons, List.not_mem_nil, false_implies, implies_true, and_true]
  simp only [string_required_iff, rating_iff]
  unfold reviewOk
  constructor
  · rintro ⟨r, hr, h, hk⟩
    exact ⟨r, hr, h, by simpa [onlyKeys] using hk⟩
  · rintro ⟨r, hr, h, hk⟩
    exact ⟨r, hr, h, by simpa [onlyKeys] using hk⟩

theorem get_eq_undefined_of_onlyKeys (allowed : List String) (kvs : List (String × JsVal))
    (k : String) (h : onlyKeys allowed kvs) (hk : k ∉ allowed) :
    JsVal.get kvs k = .undefined := by
  have : kvs.lookup k = none := by
    rw [List.lookup_eq_none_iff]
    intro kv hkv
    have h1 := h kv hkv
    simp only [bne_iff_ne, ne_eq]
    intro h2
    exact hk (h2 ▸ h1)
  simp [JsVal.get, this]

/-! ## C1: what `listingSchema` accepts -/

/-- C1, counterexample: the payload `villaBadUrl` has only the keys of a listing,
its fields are as the claim requires (its image url is the string "abc"), and
`listingSchema` rejects it, because the url is no URI. -/
theorem listingSchema_rejects_string_url :
    onlyKeys ["title", "description", "price", "location", "country", "image"] villaBadUrl ∧
    specListingOk villaBadUrl ∧
    ∀ D : Deps, listingSchema.validate D [] (.obj villaBadUrl) ≠ none := by
  refine ⟨?_, ?_, ?_⟩
  · simp [onlyKeys, villaBadUrl, villa]
  · simp [specListingOk, villaBadUrl, villa, nonEmptyStr, JsVal.get, List.lookup, JsNum.ge]
  · intro D
    rw [Ne, listingSchema_validate_iff]
    rintro ⟨p, hp, ⟨_, _, _, _, _, hi⟩, _⟩
    simp only [objectOf, Option.some.injEq] at hp
    subst hp
    simp [imageOk, villaBadUrl, villa, JsVal.get, List.lookup, objectOf, isUri] at hi

/-- C1, amended: for every listing payload made only of the keys title,
description, price, location, country and image (with only url and filename in
the image), `listingSchema` accepts the payload if and only if title,
description, location and country are non-empty strings, price is (possibly
after conversion from a string) a finite safe number >= 0, and image is absent
or an object whose url, when present, is the empty string or a URI and whose
filename, when present, is a string. -/
theorem listingSchema_accepts_iff (D : Deps) (p : List (String × JsVal))
    (hkeys : onlyKeys ["title", "description", "price", "location", "country", "image"] p)
    (himage : ∀ kvs, objectOf D (JsVal.get p "image") = some kvs →
      onlyKeys ["url", "filename"] kvs) :
    listingSchema.validate D [] (.obj p) = none ↔ listingOk D p := by
  rw [listingSchema_validate_iff]
  simp only [objectOf, Option.some.injEq, exists_eq_left']
  exact ⟨fun h => h.1, fun h => ⟨h, hkeys, himage⟩⟩

/-- C1, instance: the payload `villa` has only listing keys, and the equivalence holds for it. -/
theorem listingSchema_accepts_iff_witness :
    onlyKeys ["title", "description", "price", "location", "country", "image"] villa ∧
    (listingSchema.validate sampleDeps [] (.obj villa) = none ↔ listingOk sampleDeps villa) :=
  ⟨by simp [onlyKeys, villa],
   listingSchema_accepts_iff sampleDeps villa (by simp [onlyKeys, villa])
    (by simp [villa, JsVal.get, List.lookup, objectOf])⟩

/-! ## C2: what `reviewSchema` accepts -/

/-- C2, counterexample: the review payload with comment "Nice" and rating 2.5 is
accepted by `reviewSchema`, although 2.5 is no integer. -/
theorem reviewSchema_accepts_half_star :
    onlyKeys ["comment", "rating"] halfStarReview ∧
    ¬ specReviewOk halfStarReview ∧
    ∀ D : Deps, reviewSchema.validate D [] (.obj halfStarReview) = none := by
  refine ⟨?_, ?_, ?_⟩
  · simp [onlyKeys, halfStarReview]
  · rintro ⟨_, z, hz, _, _⟩
    simp only [halfStarReview, JsVal.get, List.lookup] at hz
    simp at hz
    have h2 : (2 : ℚ) * z = 5 := by rw [← hz]; norm_num
    have h3 : 2 * z = 5 := by exact_mod_cast h2
    omega
  · intro D
    rw [reviewSchema_validate_iff]
    refine ⟨halfStarReview, rfl, ⟨?_, ?_⟩, ?_⟩
    · simp [halfStarReview, nonEmptyStr, JsVal.get, List.lookup]
    · refine ⟨5 / 2, ?_, ?_, ?_⟩
      · simp [halfStarReview, JsVal.get, List.lookup, numberOf]
      · norm_num
      · norm_num
    · simp [onlyKeys, halfStarReview]

/-- C2, amended: for every review payload made of the keys comment and rating,
`reviewSchema` accepts the payload if and only if comment is a non-empty string
and rating is (possibly after conversion from a string) a finite number with
1 <= rating <= 5, integer or not. -/
theorem reviewSchema_accepts_iff (D : Deps) (r : List (String × JsVal))
    (hkeys : onlyKeys ["comment", "rating"] r) :
    reviewSchema.validate D [] (.obj r) = none ↔ reviewOk D r := by
  rw [reviewSchema_validate_iff]
  simp only [objectOf, Option.some.injEq, exists_eq_left']
  exact ⟨fun h => h.1, fun h => ⟨h, hkeys⟩⟩

/-- C2, instance: the review with rating 4 has only review keys, and the equivalence holds for it. -/
theorem reviewSchema_accepts_iff_witness :
    onlyKeys ["comment", "rating"] goodReview ∧
    (reviewSchema.validate sampleDeps [] (.obj goodReview) = none ↔
      reviewOk sampleDeps goodReview) :=
  ⟨by simp [onlyKeys, goodReview],
   reviewSchema_accepts_iff sampleDeps goodReview (by simp [onlyKeys, goodReview])⟩

/-! ## Lemmas on routing -/

@[simp] theorem sameSegment_signup_listings : sameSegment "signup" "listings" = false := by decide
@[simp] theorem sameSegment_login_listings : sameSegment "login" "listings" = false := by decide
@[simp] theorem sameSegment_logout_listings : sameSegment "logout" "listings" = false := by decide
@[simp] theorem sameSegment_listings_listings : sameSegment "listings" "listings" = true := by decide
@[simp] theorem sameSegment_signup_logout : sameSegment "signup" "logout" = false := by decide
@[simp] theorem sameSegment_login_logout : sameSegment "login" "logout" = false := by decide
@[simp] theorem sameSegment_logout_logout : sameSegment "logout" "logout" = true := by decide
@[simp] theorem sameSegment_listings_logout : sameSegment "listings" "logout" = false := by decide
@[simp] theorem sameSegment_edit_edit : sameSegment "edit" "edit" = true := by decide
@[simp] theorem sameSegment_edit_reviews : sameSegment "edit" "reviews" = false := by decide
@[simp] theorem sameSegment_reviews_reviews : sameSegment "reviews" "reviews" = true := by decide
@[simp] theorem sameSegment_reviews_edit : sameSegment "reviews" "edit" = false := by decide

theorem sameSegment_of_length_ne (s x : String) (h : s.data.length ≠ x.data.length) :
    sameSegment s x = false := by
  unfold sameSegment
  rw [beq_eq_false_iff_ne]
  intro heq
  apply h
  have := congrArg List.length heq
  simpa using this

theorem toLower_of_isHexDigit (c : Char) (h : isHexDigit c = true) : c.toLower = c := by
  have hall : ∀ x ∈ "0123456789abcdef".data, x.toLower = x := by decide
  apply hall
  simpa [isHexDigit] using h

theorem ne_percent_of_isHexDigitAnyCase (c : Char) (h : isHexDigitAnyCase c = true) :
    c ≠ '%' := by
  rintro rfl
  revert h
  decide

theorem isHexDigitAnyCase_of_isHexDigit (c : Char) (h : isHexDigit c = true) :
    isHexDigitAnyCase c = true := by
  unfold isHexDigitAnyCase
  rw [toLower_of_isHexDigit c h]
  exact h

theorem decodeParam_of_hex (D : Deps) (s : String)
    (h : s.data.all isHexDigitAnyCase = true) : decodeParam D s = some s := by
  unfold decodeParam
  have hc : s.data.contains '%' = false := by
    rw [Bool.eq_false_iff]
    intro hcon
    have hmem : '%' ∈ s.data := by simpa using hcon
    rw [List.all_eq_true] at h
    exact ne_percent_of_isHexDigitAnyCase _ (h _ hmem) rfl
  rw [hc]
  rfl

theorem ObjectId.all_anyCase (i : ObjectId) : i.hex.data.all isHexDigitAnyCase = true := by
  have h := i.wf.2
  rw [List.all_eq_true] at h ⊢
  intro c hc
  exact isHexDigitAnyCase_of_isHexDigit c (h c hc)

theorem ObjectId.isObjectIdString (i : ObjectId) : isObjectIdString i.hex = true := by
  unfold Wanderlust.isObjectIdString
  simp [i.wf.1, i.all_anyCase]

theorem ObjectId.canonicalId_hex (i : ObjectId) : canonicalId i.hex = i.hex := by
  unfold canonicalId
  have h := i.wf.2
  rw [List.all_eq_true] at h
  have : i.hex.data.map Char.toLower = i.hex.data := by
    conv_rhs => rw [← List.map_id i.hex.data]
    apply List.map_congr_left
    intro c hc
    simpa using toLower_of_isHexDigit c (h c hc)
  rw [this]

theorem ObjectId.hex_ne_empty (i : ObjectId) : i.hex ≠ "" := by
  intro h
  have h1 := i.wf.1
  rw [h] at h1
  simp at h1

@[simp] theorem ObjectId.sameSegment_new (i : ObjectId) : sameSegment "new" i.hex = false := by
  apply sameSegment_of_length_ne
  rw [i.wf.1]
  decide

@[simp] theorem ObjectId.decodeParam_hex (D : Deps) (i : ObjectId) :
    decodeParam D i.hex = some i.hex :=
  decodeParam_of_hex D i.hex i.all_anyCase

@[simp] theorem ObjectId.castObjectId_hex (D : Deps) (i : ObjectId) :
    castObjectId D i.hex = some i.hex := by
  simp [castObjectId, i.isObjectIdString, i.canonicalId_hex]

theorem app_eq (D : Deps) (oid : ObjectId) (req : Request) (st : State) :
    app D oid req st =
      match dispatch D oid (localsMiddleware st).1 req routes (localsMiddleware st).2 with
      | .reply r st1 => (r, st1)
      | .fail err st1 => (errorHandler err (localsMiddleware st).1, st1) := rfl

/-! ## Lemmas on the store -/

theorem updateFirst_length (id : String) (f : ListingDoc → ListingDoc) (ls : List ListingDoc) :
    (updateFirst id f ls).length = ls.length := by
  induction ls with
  | nil => rfl
  | cons l ls ih =>
    unfold updateFirst
    split <;> simp [ih]

theorem updateFirst_getElem?_of_ne (id : String) (f : ListingDoc → ListingDoc)
    (ls : List ListingDoc) (k : Nat) (l : ListingDoc) (hl : ls[k]? = some l) (hne : l._id ≠ id) :
    (updateFirst id f ls)[k]? = some l := by
  induction ls generalizing k with
  | nil => simp at hl
  | cons x xs ih =>
    unfold updateFirst
    cases k with
    | zero =>
      simp only [List.getElem?_cons_zero, Option.some.injEq] at hl
      subst hl
      simp [hne]
    | succ k =>
      simp only [List.getElem?_cons_succ] at hl
      split
      · simpa using hl
      · simpa using ih k hl

theorem find_updateFirst (id : String) (f : ListingDoc → ListingDoc) (ls : List ListingDoc)
    (hf : ∀ l, (f l)._id = l._id) :
    (updateFirst id f ls).find? (fun l => l._id == id) =
      (ls.find? (fun l => l._id == id)).map f := by
  induction ls with
  | nil => rfl
  | cons x xs ih =>
    unfold updateFirst
    by_cases hx : x._id = id
    · simp [hx, hf]
    · simp [hx, ih]

/-! ## C3: a listing payload with a missing field -/

/-- C3: for every request to POST /listings that passes the session guard and
whose `body.listing` is missing altogether or is an object without one of
title, description, price, location and country, `validateListing` throws an
`ExpressError` with status code 400, the response has status 400 and the
database after the request is the database before it. -/
theorem create_missing_field_400 (D : Deps) (oid : ObjectId) (body : List (String × JsVal))
    (st : State) (u : String) (hu : st.session.user = some u)
    (hmiss : JsVal.get body "listing" = .undefined ∨
      ∃ p k, JsVal.get body "listing" = .obj p ∧
        k ∈ ["title", "description", "price", "location", "country"] ∧
        JsVal.get p k = .undefined) :
    (∀ st1, ∃ m, validateListing D ⟨.POST, ["listings"], body⟩ st1 =
      .fail (ExpressError 400 m) st1) ∧
    (app D oid ⟨.POST, ["listings"], body⟩ st).1.status = 400 ∧
    (app D oid ⟨.POST, ["listings"], body⟩ st).2.db = st.db := by
  have hv : listingSchema.validate D [] (JsVal.get body "listing") ≠ none := by
    rw [Ne, listingSchema_validate_iff]
    rintro ⟨p, hp, ⟨h1, h2, h3, h4, h5, _⟩, _⟩
    rcases hmiss with h | ⟨p1, k, hp1, hk, hund⟩
    · rw [h] at hp; simp [objectOf] at hp
    · rw [hp1] at hp
      simp only [objectOf, Option.some.injEq] at hp
      subst hp
      simp only [List.mem_cons, List.mem_singleton, List.not_mem_nil, or_false] at hk
      rcases hk with rfl | rfl | rfl | rfl | rfl
      · rw [hund] at h1; simp [nonEmptyStr] at h1
      · rw [hund] at h2; simp [nonEmptyStr] at h2
      · rw [hund] at h3; simp [priceOk, numberOf] at h3
      · rw [hund] at h4; simp [nonEmptyStr] at h4
      · rw [hund] at h5; simp [nonEmptyStr] at h5
  obtain ⟨m, hm⟩ := Option.ne_none_iff_exists'.mp hv
  refine ⟨fun st1 => ⟨m, by simp [validateListing, hm]⟩, ?_⟩
  simp [app, dispatch, routes, matchPath, decodeParams, runStack, Middleware.run, isLoggedIn,
    hu, validateListing, hm, localsMiddleware, errorHandler, ExpressError, Reply.status]

/-- C3, instance: the payload `villa` without its title, posted by a logged-in user to an empty database. -/
theorem create_missing_field_400_witness :
    (app sampleDeps sampleId ⟨.POST, ["listings"], [("listing", .obj (villa.drop 1))]⟩
      (emptyState (some "alice"))).1.status = 400 ∧
    (app sampleDeps sampleId ⟨.POST, ["listings"], [("listing", .obj (villa.drop 1))]⟩
      (emptyState (some "alice"))).2.db = (emptyState (some "alice")).db :=
  (create_missing_field_400 sampleDeps sampleId [("listing", .obj (villa.drop 1))]
    (emptyState (some "alice")) "alice" rfl
    (Or.inr ⟨villa.drop 1, "title", rfl, by simp, rfl⟩)).2

/-! ## C4: a rating outside [1, 5] -/

/-- C4: for every request to POST /listings/:id/reviews whose `review.rating`
is a number less than 1 or greater than 5 (written as a number, or as the
string that the validator converts to it, which is how a form submits it),
whatever the comment and the id, `validateReview` throws an `ExpressError` with
status code 400, the response has status 400 and the database after the request
is the database before it (no review is stored, no listing changed). -/
theorem review_rating_out_of_range_400 (D : Deps) (oid : ObjectId) (id id1 : String)
    (body r : List (String × JsVal)) (n : JsNum) (st : State) (hid : id ≠ "")
    (hdec : decodeParam D id = some id1)
    (hreview : objectOf D (JsVal.get body "review") = some r)
    (hrating : numberOf D (JsVal.get r "rating") = some n)
    (hout : n.lt 1 = true ∨ n.gt 5 = true) :
    (∀ st1, ∃ m, validateReview D ⟨.POST, ["listings", id, "reviews"], body⟩ st1 =
      .fail (ExpressError 400 m) st1) ∧
    (app D oid ⟨.POST, ["listings", id, "reviews"], body⟩ st).1.status = 400 ∧
    (app D oid ⟨.POST, ["listings", id, "reviews"], body⟩ st).2.db = st.db := by
  have hv : reviewSchema.validate D [] (JsVal.get body "review") ≠ none := by
    rw [Ne, reviewSchema_validate_iff]
    rintro ⟨r1, hr1, ⟨_, q, hq, h1, h5⟩, _⟩
    rw [hreview] at hr1
    simp only [Option.some.injEq] at hr1
    subst hr1
    rw [hrating] at hq
    simp only [Option.some.injEq] at hq
    subst hq
    simp only [JsNum.lt, JsNum.gt, decide_eq_true_eq] at hout
    rcases hout with h | h <;> linarith
  obtain ⟨m, hm⟩ := Option.ne_none_iff_exists'.mp hv
  refine ⟨fun st1 => ⟨m, by simp [validateReview, hm]⟩, ?_⟩
  simp [app, dispatch, routes, matchPath, decodeParams, hdec, runStack, Middleware.run, hid,
    validateReview, hm, localsMiddleware, errorHandler, ExpressError, Reply.status]

/-- C4, instance: a review with the rating "6", as a form submits it, for the
stored listing `cabin`. -/
theorem review_rating_out_of_range_400_witness :
    (app sampleDeps otherId ⟨.POST, ["listings", sampleId.hex, "reviews"],
      [("review", .obj sixStarReview)]⟩ (cabinState none)).1.status = 400 ∧
    (app sampleDeps otherId ⟨.POST, ["listings", sampleId.hex, "reviews"],
      [("review", .obj sixStarReview)]⟩ (cabinState none)).2.db = (cabinState none).db :=
  (review_rating_out_of_range_400 sampleDeps otherId sampleId.hex sampleId.hex
    [("review", .obj sixStarReview)] sixStarReview (.fin 6) (cabinState none)
    sampleId.hex_ne_empty (ObjectId.decodeParam_hex sampleDeps sampleId) rfl
    (by
      have h : decimalValue "6".data = some 6 := by decide
      simp [sixStarReview, JsVal.get, List.lookup, numberOf, sampleDeps, h])
    (Or.inr (by simp [JsNum.gt]; norm_num))).2

/-! ## C5: the owner of a created listing -/

/-- C5, as the code has it: for every authenticated user `u` and every listing
payload `p` accepted by `listingSchema`, POST /listings stores exactly one new
listing, built from `p`, and redirects to /listings with the success flash; the
owner of the new listing is not `u`: it is unset. -/
theorem create_leaves_owner_unset (D : Deps) (oid : ObjectId)
    (body p : List (String × JsVal)) (st : State) (u : String)
    (hu : st.session.user = some u)
    (hbody : JsVal.get body "listing" = .obj p)
    (hp : listingSchema.validate D [] (.obj p) = none) :
    (app D oid ⟨.POST, ["listings"], body⟩ st).1 = .redirect "/listings" ∧
    ("success", "Successfully created a new listing!") ∈
      (app D oid ⟨.POST, ["listings"], body⟩ st).2.session.flash ∧
    (app D oid ⟨.POST, ["listings"], body⟩ st).2.db.listings =
      st.db.listings ++ [Listing.new oid (.obj p)] ∧
    (Listing.new oid (.obj p)).owner = none ∧
    (Listing.new oid (.obj p)).owner ≠ some u := by
  have hkeys := ((listingSchema_validate_iff D (.obj p)).mp hp)
  obtain ⟨p1, hp1, _, hk, _⟩ := hkeys
  simp only [objectOf, Option.some.injEq] at hp1
  subst hp1
  have hown : JsVal.get p "owner" = .undefined :=
    get_eq_undefined_of_onlyKeys _ p "owner" hk (by simp)
  have howner : (Listing.new oid (.obj p)).owner = none := by
    simp [Listing.new, JsVal.prop, hown, JsVal.asRef]
  refine ⟨?_, ?_, ?_, howner, by rw [howner]; simp⟩
  · simp [app, dispatch, routes, matchPath, decodeParams, runStack, Middleware.run, isLoggedIn, hu,
      validateListing, hbody, hp, localsMiddleware, wrapAsync, Handler.run]
  · simp [app, dispatch, routes, matchPath, decodeParams, runStack, Middleware.run, isLoggedIn, hu,
      validateListing, hbody, hp, localsMiddleware, wrapAsync, Handler.run, State.flash]
  · simp [app, dispatch, routes, matchPath, decodeParams, runStack, Middleware.run, isLoggedIn, hu,
      validateListing, hbody, hp, localsMiddleware, wrapAsync, Handler.run, State.flash,
      Listing.insert]

/-- The payload `villa` is accepted by `listingSchema`. -/
theorem villa_accepted : listingSchema.validate sampleDeps [] (.obj villa) = none := by
  rw [listingSchema_validate_iff]
  refine ⟨villa, rfl, ⟨?_, ?_, ?_, ?_, ?_, ?_⟩, ?_, ?_⟩
  · simp [villa, nonEmptyStr, JsVal.get, List.lookup]
  · simp [villa, nonEmptyStr, JsVal.get, List.lookup]
  · refine ⟨100, by simp [villa, JsVal.get, List.lookup, numberOf], by norm_num,
      by unfold MAX_SAFE_INTEGER; norm_num⟩
  · simp [villa, nonEmptyStr, JsVal.get, List.lookup]
  · simp [villa, nonEmptyStr, JsVal.get, List.lookup]
  · left; simp [villa, JsVal.get, List.lookup]
  · simp [onlyKeys, villa]
  · simp [villa, JsVal.get, List.lookup, objectOf]

/-- C5, instance: the payload `villa` posted by the logged-in user "alice" to an empty database is stored without an owner. -/
theorem create_leaves_owner_unset_witness :
    (app sampleDeps sampleId ⟨.POST, ["listings"], [("listing", .obj villa)]⟩
      (emptyState (some "alice"))).2.db.listings = [Listing.new sampleId (.obj villa)] ∧
    (Listing.new sampleId (.obj villa)).owner = none :=
  ⟨(create_leaves_owner_unset sampleDeps sampleId [("listing", .obj villa)] villa
      (emptyState (some "alice")) "alice" rfl rfl villa_accepted).2.2.1,
   (create_leaves_owner_unset sampleDeps sampleId [("listing", .obj villa)] villa
      (emptyState (some "alice")) "alice" rfl rfl villa_accepted).2.2.2.1⟩

/-! ## C6: a review for a listing that does not exist -/

theorem find?_eq_none_of_forall_ne (ls : List ListingDoc) (id : String)
    (h : ∀ l ∈ ls, l._id ≠ id) : ls.find? (fun l => l._id == id) = none := by
  rw [List.find?_eq_none]
  intro l hl
  simpa using h l hl

/-- C6, as the code has it: for every request to POST /listings/:id/reviews
with a review payload accepted by `reviewSchema` and an id that matches no
stored listing, the response has status 500 (not 404), with the message of the
`TypeError` raised by `listing.reviews` on `null`; the database is unchanged. -/
theorem review_on_missing_listing_500 (D : Deps) (oid id : ObjectId)
    (body : List (String × JsVal)) (st : State)
    (hv : reviewSchema.validate D [] (JsVal.get body "review") = none)
    (hnone : ∀ l ∈ st.db.listings, l._id ≠ id.hex) :
    (app D oid ⟨.POST, ["listings", id.hex, "reviews"], body⟩ st).1.status = 500 ∧
    (app D oid ⟨.POST, ["listings", id.hex, "reviews"], body⟩ st).1.status ≠ 404 ∧
    (app D oid ⟨.POST, ["listings", id.hex, "reviews"], body⟩ st).1.errorMessage =
      some "Cannot read properties of null (reading 'reviews')" ∧
    (app D oid ⟨.POST, ["listings", id.hex, "reviews"], body⟩ st).2.db = st.db := by
  have hid := id.hex_ne_empty
  have hfind : (localsMiddleware st).2.db.listings.find? (fun l => l._id == id.hex) = none :=
    find?_eq_none_of_forall_ne _ _ hnone
  simp [app, dispatch, routes, matchPath, decodeParams, runStack, Middleware.run, hid,
    Params.id, validateReview, hv, wrapAsync, Handler.run, Listing.findById, hfind,
    errorHandler, Reply.status, Reply.errorMessage, List.lookup]
  rfl

/-- The review with rating 4 is accepted by `reviewSchema`. -/
theorem goodReview_accepted : reviewSchema.validate sampleDeps [] (.obj goodReview) = none := by
  rw [reviewSchema_validate_iff]
  refine ⟨goodReview, rfl, ⟨?_, 4, ?_, by norm_num, by norm_num⟩, ?_⟩
  · simp [goodReview, nonEmptyStr, JsVal.get, List.lookup]
  · simp [goodReview, JsVal.get, List.lookup, numberOf]
  · simp [onlyKeys, goodReview]

/-- C6, instance: a valid review for an id that an empty database does not hold is answered with status 500. -/
theorem review_on_missing_listing_500_witness :
    (app sampleDeps otherId ⟨.POST, ["listings", sampleId.hex, "reviews"],
      [("review", .obj goodReview)]⟩ (emptyState none)).1.status = 500 :=
  (review_on_missing_listing_500 sampleDeps otherId sampleId [("review", .obj goodReview)]
    (emptyState none) goodReview_accepted (by simp [emptyState])).1

/-! ## C7: the routes behind the session guard -/

/-- C7, counterexample: the specification marks POST /logout with the guard
"session", and the route of `app.js` for it has no `isLoggedIn` in its stack: a
logout request without a session is answered by the handler (a redirect to
/listings), not by the guard (a redirect to /login). -/
theorem logout_route_unguarded :
    (Method.POST, [Seg.lit "logout"]) ∈ specSessionRoutes ∧
    (⟨.POST, [.lit "logout"], [.plain .logout]⟩ : Route) ∈ routes ∧
    Middleware.isLoggedIn ∉ [Middleware.plain Handler.logout] ∧
    (app sampleDeps sampleId ⟨.POST, ["logout"], []⟩ (emptyState none)).1 =
      .redirect "/listings" := by
  refine ⟨by decide, by decide, by decide, ?_⟩
  simp [app, dispatch, routes, matchPath, decodeParams, runStack, Middleware.run, Handler.run]

/-- C7, amended: the route table of `app.js` has exactly the routes of the
specification's interface table; it applies `isLoggedIn` to GET /listings/new,
POST /listings, GET /listings/:id/edit, PUT /listings/:id and DELETE
/listings/:id, and to no other route (not to POST /logout, nor to any route that
the table marks "none"); on every guarded route that also validates,
`isLoggedIn` comes before the validator in the stack, so that a request without
a session is redirected to /login whatever its payload. -/
theorem isLoggedIn_routes :
    routes.map Route.key =
      [ (.GET, [.lit "signup"]), (.POST, [.lit "signup"]), (.GET, [.lit "login"]),
        (.POST, [.lit "login"]), (.POST, [.lit "logout"]), (.GET, [.lit "listings"]),
        (.GET, [.lit "listings", .lit "new"]), (.POST, [.lit "listings"]),
        (.GET, [.lit "listings", .param "id"]),
        (.GET, [.lit "listings", .param "id", .lit "edit"]),
        (.PUT, [.lit "listings", .param "id"]), (.DELETE, [.lit "listings", .param "id"]),
        (.POST, [.lit "listings", .param "id", .lit "reviews"]) ] ∧
    (∀ r ∈ routes, Middleware.isLoggedIn ∈ r.stack ↔
      (r.key ∈ specSessionRoutes ∧ r.key ≠ (.POST, [.lit "logout"]))) ∧
    (∀ r ∈ routes, r.key ∈ specOpenRoutes → Middleware.isLoggedIn ∉ r.stack) ∧
    (∀ r ∈ routes, ∀ v ∈ [Middleware.validateListing, Middleware.validateReview],
      Middleware.isLoggedIn ∈ r.stack → v ∈ r.stack →
        r.stack.indexOf Middleware.isLoggedIn < r.stack.indexOf v) ∧
    (∀ (D : Deps) (oid i : ObjectId) (body : List (String × JsVal)) (st : State),
      st.session.user = none →
        (app D oid ⟨.POST, ["listings"], body⟩ st).1 = .redirect "/login" ∧
        (app D oid ⟨.PUT, ["listings", i.hex], body⟩ st).1 = .redirect "/login") := by
  refine ⟨by decide, by decide, by decide, by decide, ?_⟩
  intro D oid i body st hu
  have hi := i.hex_ne_empty
  constructor
  · simp [app, dispatch, routes, matchPath, decodeParams, runStack, Middleware.run, isLoggedIn, hu,
      localsMiddleware]
  · simp [app, dispatch, routes, matchPath, decodeParams, runStack, Middleware.run, isLoggedIn, hu,
      localsMiddleware, hi]

/-! ## C8: the error handler -/

theorem matchPath_values (pat : List Seg) (path : List String) (raw : Params)
    (h : matchPath pat path = some raw) : ∀ p ∈ raw, p.2 ∈ path := by
  induction pat generalizing path raw with
  | nil =>
    cases path with
    | nil => simp [matchPath] at h; subst h; simp
    | cons x xs =>
      cases xs with
      | nil =>
        simp only [matchPath] at h
        split at h
        · simp only [Option.some.injEq] at h; subst h; simp
        · simp at h
      | cons y ys => simp [matchPath] at h
  | cons seg segs ih =>
    cases path with
    | nil => cases seg <;> simp [matchPath] at h
    | cons x xs =>
      cases seg with
      | lit s =>
        simp only [matchPath] at h
        split at h
        · intro p hp
          exact List.mem_cons_of_mem _ (ih xs raw h p hp)
        · simp at h
      | param name =>
        simp only [matchPath] at h
        split at h
        · simp at h
        · simp only [Option.map_eq_some'] at h
          obtain ⟨ps, hps, rfl⟩ := h
          intro p hp
          rcases List.mem_cons.mp hp with rfl | hp
          · simp
          · exact List.mem_cons_of_mem _ (ih xs ps hps p hp)

theorem decodeParams_ok (D : Deps) (raw : Params) (h : ∀ p ∈ raw, decodeParam D p.2 ≠ none) :
    ∃ ps, decodeParams D raw = .ok ps := by
  induction raw with
  | nil => exact ⟨[], rfl⟩
  | cons p rest ih =>
    obtain ⟨name, val⟩ := p
    obtain ⟨v, hv⟩ := Option.ne_none_iff_exists'.mp (h (name, val) (List.mem_cons_self _ _))
    obtain ⟨ps, hps⟩ := ih (fun q hq => h q (List.mem_cons_of_mem _ hq))
    exact ⟨(name, v) :: ps, by simp [decodeParams, hv, hps]⟩

theorem matchPath_none_of_not_matchesRoute (req : Request) (h : matchesRoute req = false) :
    ∀ r ∈ routes, r.method = req.method → matchPath r.pattern req.path = none := by
  intro r hr hm
  unfold matchesRoute at h
  rw [List.any_eq_false] at h
  have h1 := h r hr
  simpa [hm] using h1

theorem dispatch_unmatched (D : Deps) (oid : ObjectId) (locals : Locals) (req : Request)
    (rs : List Route) (st : State)
    (h : ∀ r ∈ rs, r.method = req.method → matchPath r.pattern req.path = none)
    (hdec : pathDecodes D req) :
    dispatch D oid locals req rs st = .fail (ExpressError 404 "Page Not Found") st := by
  induction rs with
  | nil => rfl
  | cons r rs ih =>
    have ih1 := ih (fun x hx => h x (List.mem_cons_of_mem _ hx))
    unfold dispatch
    cases hmatch : matchPath r.pattern req.path with
    | none => simpa using ih1
    | some raw =>
      obtain ⟨ps, hps⟩ := decodeParams_ok D raw
        (fun p hp => hdec p.2 (matchPath_values _ _ _ hmatch p hp))
      have hm : ¬ r.method = req.method := by
        intro hm
        have := h r (List.mem_cons_self _ _) hm
        rw [hmatch] at this
        simp at this
      simp [hps, hm, ih1]

/-- C8, counterexample: no route of the table has the method POST and matches
the path /listings/%zz, yet the request is not rendered with the message "Page
Not Found": the path matches the pattern /listings/:id of other methods, the
router fails to decode the parameter, and the error handler renders that error
(with status 400 where the router gives it that status code). -/
theorem unmatched_request_decode_error :
    matchesRoute ⟨.POST, ["listings", "%zz"], []⟩ = false ∧
    (∀ (D : Deps) (oid : ObjectId) (st : State),
      (app D oid ⟨.POST, ["listings", "%zz"], []⟩ st).1.errorMessage =
        some "Failed to decode param '%zz'") ∧
    (app sampleDeps sampleId ⟨.POST, ["listings", "%zz"], []⟩ (emptyState none)).1.status =
      400 := by
  have h1 : sameSegment "new" "%zz" = false := by decide
  have h2 : "%zz".data.contains '%' = true := by decide
  have h3 : wellFormedEscapes "%zz".data = false := by decide
  have h6 : ∀ D : Deps, decodeParam D "%zz" = none := by
    intro D
    unfold decodeParam
    rw [h2, h3]
    rfl
  refine ⟨by decide, ?_, ?_⟩
  · intro D oid st
    simp [app_eq, dispatch, routes, matchPath, decodeParams, h1, h6, errorHandler,
      Reply.errorMessage, decodeError]
  · simp [app_eq, dispatch, routes, matchPath, decodeParams, h1, h6, errorHandler,
      Reply.status, decodeError, sampleDeps]

/-- C8, amended: for every error value reaching the error handler, the response
status is the error's `statusCode` when it is set and 500 otherwise, and the
rendered message is the error's message when it is non-empty and "Something
went wrong!" otherwise; an `ExpressError(s, m)` with non-empty `m` is rendered
with status `s` and message `m`; a request that matches no route and whose path
segments all decode is rendered with status 404 and message "Page Not Found",
and leaves the database as it was. -/
theorem errorHandler_status_and_message (err : JsError) (locals : Locals) :
    (∀ s, err.statusCode = some s → (errorHandler err locals).status = s) ∧
    (err.statusCode = none → (errorHandler err locals).status = 500) ∧
    (∀ m, err.message = some m → m ≠ "" → (errorHandler err locals).errorMessage = some m) ∧
    (err.message = none ∨ err.message = some "" →
      (errorHandler err locals).errorMessage = some "Something went wrong!") ∧
    (∀ (s : Nat) (m : String), m ≠ "" →
      (errorHandler (ExpressError s m) locals).status = s ∧
      (errorHandler (ExpressError s m) locals).errorMessage = some m) ∧
    (∀ (D : Deps) (oid : ObjectId) (req : Request) (st : State), matchesRoute req = false →
      pathDecodes D req →
      (app D oid req st).1.status = 404 ∧
      (app D oid req st).1.errorMessage = some "Page Not Found" ∧
      (app D oid req st).2.db = st.db) := by
  refine ⟨?_, ?_, ?_, ?_, ?_, ?_⟩
  · intro s hs
    simp [errorHandler, Reply.status, hs]
  · intro hs
    simp [errorHandler, Reply.status, hs]
  · intro m hm hne
    simp [errorHandler, Reply.errorMessage, hm, hne]
  · rintro (hm | hm) <;> simp [errorHandler, Reply.errorMessage, hm]
  · intro s m hne
    simp [errorHandler, Reply.errorMessage, Reply.status, ExpressError, hne]
  · intro D oid req st hreq hdec
    have h := dispatch_unmatched D oid (localsMiddleware st).1 req routes (localsMiddleware st).2
      (matchPath_none_of_not_matchesRoute req hreq) hdec
    rw [app_eq, h]
    simp [errorHandler, Reply.status, Reply.errorMessage, ExpressError, localsMiddleware]

/-- C8, instance: GET /about matches no route and is answered with status 404 and "Page Not Found". -/
theorem errorHandler_status_and_message_witness :
    (app sampleDeps sampleId ⟨.GET, ["about"], []⟩ (emptyState none)).1.status = 404 ∧
    (app sampleDeps sampleId ⟨.GET, ["about"], []⟩ (emptyState none)).1.errorMessage =
      some "Page Not Found" :=
  ⟨((errorHandler_status_and_message (ExpressError 404 "Page Not Found")
      (localsMiddleware (emptyState none)).1).2.2.2.2.2 sampleDeps sampleId
      ⟨.GET, ["about"], []⟩ (emptyState none) (by decide)
      (by
        have h : "about".data.contains '%' = false := by decide
        intro x hx
        simp only [List.mem_singleton] at hx
        subst hx
        unfold decodeParam
        rw [h]
        simp)).1,
   ((errorHandler_status_and_message (ExpressError 404 "Page Not Found")
      (localsMiddleware (emptyState none)).1).2.2.2.2.2 sampleDeps sampleId
      ⟨.GET, ["about"], []⟩ (emptyState none) (by decide)
      (by
        have h : "about".data.contains '%' = false := by decide
        intro x hx
        simp only [List.mem_singleton] at hx
        subst hx
        unfold decodeParam
        rw [h]
        simp)).2.1⟩

/-! ## C9: showing and editing a listing -/

theorem ne_empty_of_isObjectIdString (id : String) (h : isObjectIdString id = true) :
    id ≠ "" := by
  rintro rfl
  revert h
  decide

theorem sameSegment_new_of_isObjectIdString (id : String) (h : isObjectIdString id = true) :
    sameSegment "new" id = false := by
  apply sameSegment_of_length_ne
  simp only [isObjectIdString, Bool.and_eq_true, decide_eq_true_eq] at h
  rw [h.1]
  decide

theorem decodeParam_of_isObjectIdString (D : Deps) (id : String)
    (h : isObjectIdString id = true) : decodeParam D id = some id := by
  simp only [isObjectIdString, Bool.and_eq_true, decide_eq_true_eq] at h
  exact decodeParam_of_hex D id h.2

theorem castObjectId_of_isObjectIdString (D : Deps) (id : String)
    (h : isObjectIdString id = true) : castObjectId D id = some (canonicalId id) := by
  simp [castObjectId, h]

theorem app_show_found (D : Deps) (oid : ObjectId) (id : String)
    (body : List (String × JsVal)) (st : State) (l : ListingDoc)
    (hid : isObjectIdString id = true)
    (hl : st.db.listings.find? (fun x => x._id == canonicalId id) = some l) :
    (app D oid ⟨.GET, ["listings", id], body⟩ st).1 =
      .render 200 (.show (populate st.db l)) (localsMiddleware st).1 := by
  have h1 := ne_empty_of_isObjectIdString id hid
  have h2 := sameSegment_new_of_isObjectIdString id hid
  have h3 := decodeParam_of_isObjectIdString D id hid
  have h4 := castObjectId_of_isObjectIdString D id hid
  have hdb : (localsMiddleware st).2.db = st.db := rfl
  simp [app_eq, dispatch, routes, matchPath, decodeParams, runStack, Middleware.run, h1, h2,
    h3, h4, Params.id, wrapAsync, Handler.run, Listing.findById, hl, List.lookup, hdb]

/-- C9, counterexample: the id "abc" matches no listing of the empty database,
and GET /listings/abc is answered with status 500, not 404: the query by id
fails with a `CastError`, which has no status code. -/
theorem show_malformed_id_500 :
    (∀ l ∈ (emptyState none).db.listings, l._id ≠ "abc") ∧
    ∀ (D : Deps) (oid : ObjectId),
      (app D oid ⟨.GET, ["listings", "abc"], []⟩ (emptyState none)).1.status = 500 := by
  refine ⟨by simp [emptyState], ?_⟩
  intro D oid
  have h1 : sameSegment "new" "abc" = false := by decide
  have h2 : "abc".data.contains '%' = false := by decide
  have h3 : isObjectIdString "abc" = false := by decide
  have h4 : utf16Length "abc" = 3 := by decide
  have h5 : castObjectId D "abc" = none := by simp [castObjectId, h3, h4]
  have h6 : decodeParam D "abc" = some "abc" := by
    unfold decodeParam
    rw [h2]
    rfl
  simp [app_eq, dispatch, routes, matchPath, decodeParams, runStack, Middleware.run, h1, h5,
    h6, Params.id, wrapAsync, Handler.run, Listing.findById, List.lookup, errorHandler,
    Reply.status, castError]

/-- C9, amended: for every store and every id of 24 hexadecimal digits that
matches no stored listing, GET /listings/:id responds with status 404 and the
message "Listing not found" and renders no listing page, and so does GET
/listings/:id/edit for an authenticated request; for every such id that matches
a stored listing, GET /listings/:id renders that listing, its references
resolved, with status 200. -/
theorem show_and_edit_by_id (D : Deps) (oid : ObjectId) (id : String)
    (body : List (String × JsVal)) (st : State) (hid : isObjectIdString id = true) :
    ((∀ l ∈ st.db.listings, l._id ≠ canonicalId id) →
      ((app D oid ⟨.GET, ["listings", id], body⟩ st).1.status = 404 ∧
       (app D oid ⟨.GET, ["listings", id], body⟩ st).1.errorMessage =
         some "Listing not found" ∧
       (app D oid ⟨.GET, ["listings", id], body⟩ st).1.showsListing = false) ∧
      (∀ u, st.session.user = some u →
       (app D oid ⟨.GET, ["listings", id, "edit"], body⟩ st).1.status = 404 ∧
       (app D oid ⟨.GET, ["listings", id, "edit"], body⟩ st).1.errorMessage =
         some "Listing not found" ∧
       (app D oid ⟨.GET, ["listings", id, "edit"], body⟩ st).1.showsListing = false)) ∧
    (∀ l, st.db.listings.find? (fun x => x._id == canonicalId id) = some l →
      (app D oid ⟨.GET, ["listings", id], body⟩ st).1 =
        .render 200 (.show (populate st.db l)) (localsMiddleware st).1) := by
  have h1 := ne_empty_of_isObjectIdString id hid
  have h2 := sameSegment_new_of_isObjectIdString id hid
  have h3 := decodeParam_of_isObjectIdString D id hid
  have h4 := castObjectId_of_isObjectIdString D id hid
  refine ⟨fun hnone => ⟨?_, ?_⟩, ?_⟩
  · have hfind : (localsMiddleware st).2.db.listings.find?
        (fun l => l._id == canonicalId id) = none := find?_eq_none_of_forall_ne _ _ hnone
    simp [app_eq, dispatch, routes, matchPath, decodeParams, runStack, Middleware.run, h1, h2,
      h3, h4, Params.id, wrapAsync, Handler.run, Listing.findById, hfind, errorHandler,
      Reply.status, Reply.errorMessage, Reply.showsListing, ExpressError, List.lookup]
  · intro u hu
    have hfind : (localsMiddleware st).2.db.listings.find?
        (fun l => l._id == canonicalId id) = none := find?_eq_none_of_forall_ne _ _ hnone
    have hu1 : (localsMiddleware st).2.session.user = some u := hu
    simp [app_eq, dispatch, routes, matchPath, decodeParams, runStack, Middleware.run, h1, h2,
      h3, h4, Params.id, wrapAsync, Handler.run, Listing.findById, hfind, errorHandler,
      Reply.status, Reply.errorMessage, Reply.showsListing, ExpressError, List.lookup,
      isLoggedIn, hu1]
  · intro l hl
    exact app_show_found D oid id body st l hid hl

/-- C9, instance: GET /listings/:id with the id of `cabin` is answered with 404
on an empty database and with the page of `cabin` on a database that holds it. -/
theorem show_and_edit_by_id_witness :
    (app sampleDeps otherId ⟨.GET, ["listings", sampleId.hex], []⟩ (emptyState none)).1.status =
      404 ∧
    (app sampleDeps otherId ⟨.GET, ["listings", sampleId.hex], []⟩ (cabinState none)).1 =
      .render 200 (.show (populate (cabinState none).db cabin))
        (localsMiddleware (cabinState none)).1 :=
  ⟨((show_and_edit_by_id sampleDeps otherId sampleId.hex [] (emptyState none)
      sampleId.isObjectIdString).1 (by simp [emptyState])).1.1,
   (show_and_edit_by_id sampleDeps otherId sampleId.hex [] (cabinState none)
      sampleId.isObjectIdString).2 cabin
     (by simp [cabinState, cabin, sampleId.canonicalId_hex])⟩

/-! ## C10: update, then show -/

theorem orKeep_of_nonEmptyStr (new old : JsVal) (h : nonEmptyStr new) : new.orKeep old = new := by
  obtain ⟨s, rfl, _⟩ := h
  rfl

theorem orKeep_of_priceOk (D : Deps) (new old : JsVal) (h : priceOk D new) :
    new.orKeep old = new := by
  obtain ⟨q, hq, _⟩ := h
  cases new <;> first | rfl | simp [numberOf] at hq

theorem app_update_db (D : Deps) (oid i : ObjectId) (body p : List (String × JsVal))
    (st : State) (u : String) (hu : st.session.user = some u)
    (hbody : JsVal.get body "listing" = .obj p)
    (hp : listingSchema.validate D [] (.obj p) = none) :
    (app D oid ⟨.PUT, ["listings", i.hex], body⟩ st).2.db =
      { st.db with
        listings := updateFirst i.hex (fun l => Listing.assign l (.obj p)) st.db.listings } := by
  have hid := i.hex_ne_empty
  have hdb : (localsMiddleware st).2.db = st.db := rfl
  have hu1 : (localsMiddleware st).2.session.user = some u := hu
  simp [app_eq, dispatch, routes, matchPath, decodeParams, runStack, Middleware.run, hid,
    Params.id, wrapAsync, Handler.run, Listing.findByIdAndUpdate, List.lookup, hdb, isLoggedIn,
    hu1, validateListing, hbody, hp, State.flash]

/-- C10: for every authenticated session, every stored listing with id `i` and
every payload `p` accepted by `listingSchema`, after PUT /listings/i with
`body.listing = p` a following GET /listings/i renders, with status 200, a
listing whose title, description, price, location and country are those of
`p`, while every other stored listing is unchanged. -/
theorem update_then_show (D : Deps) (oid oid1 i : ObjectId) (body body1 p : List (String × JsVal))
    (st : State) (u : String) (l : ListingDoc)
    (hu : st.session.user = some u)
    (hl : st.db.listings.find? (fun x => x._id == i.hex) = some l)
    (hbody : JsVal.get body "listing" = .obj p)
    (hp : listingSchema.validate D [] (.obj p) = none) :
    (∃ shown locals,
      (app D oid1 ⟨.GET, ["listings", i.hex], body1⟩
        (app D oid ⟨.PUT, ["listings", i.hex], body⟩ st).2).1 = .render 200 (.show shown) locals ∧
      shown.listing._id = i.hex ∧
      shown.listing.title = JsVal.get p "title" ∧
      shown.listing.description = JsVal.get p "description" ∧
      shown.listing.price = JsVal.get p "price" ∧
      shown.listing.location = JsVal.get p "location" ∧
      shown.listing.country = JsVal.get p "country") ∧
    (app D oid ⟨.PUT, ["listings", i.hex], body⟩ st).2.db.listings.length =
      st.db.listings.length ∧
    (∀ (k : Nat) (l1 : ListingDoc), st.db.listings[k]? = some l1 → l1._id ≠ i.hex →
      (app D oid ⟨.PUT, ["listings", i.hex], body⟩ st).2.db.listings[k]? = some l1) := by
  have hdb := app_update_db D oid i body p st u hu hbody hp
  obtain ⟨p1, hp1, ⟨h1, h2, h3, h4, h5, _⟩, _, _⟩ := (listingSchema_validate_iff D (.obj p)).mp hp
  simp only [objectOf, Option.some.injEq] at hp1
  subst hp1
  have hfind : (app D oid ⟨.PUT, ["listings", i.hex], body⟩ st).2.db.listings.find?
      (fun x => x._id == canonicalId i.hex) = some (Listing.assign l (.obj p)) := by
    rw [hdb, i.canonicalId_hex]
    have := find_updateFirst i.hex (fun l => Listing.assign l (.obj p)) st.db.listings
      (fun _ => rfl)
    simp only [this]
    rw [hl]
    rfl
  have hid : l._id = i.hex := by
    have := List.find?_some hl
    simpa using this
  refine ⟨⟨_, _, app_show_found D oid1 i.hex body1 _ _ i.isObjectIdString hfind,
    ?_, ?_, ?_, ?_, ?_, ?_⟩, ?_, ?_⟩
  · simpa [populate, Listing.assign] using hid
  · simp [populate, Listing.assign, JsVal.prop, orKeep_of_nonEmptyStr _ _ h1]
  · simp [populate, Listing.assign, JsVal.prop, orKeep_of_nonEmptyStr _ _ h2]
  · simp [populate, Listing.assign, JsVal.prop, orKeep_of_priceOk D _ _ h3]
  · simp [populate, Listing.assign, JsVal.prop, orKeep_of_nonEmptyStr _ _ h4]
  · simp [populate, Listing.assign, JsVal.prop, orKeep_of_nonEmptyStr _ _ h5]
  · rw [hdb]
    exact updateFirst_length _ _ _
  · intro k l1 hk hne
    rw [hdb]
    exact updateFirst_getElem?_of_ne _ _ _ k l1 hk hne

/-- C10, instance: after the stored listing `cabin` is updated with the payload `villa`, its page shows the fields of `villa`. -/
theorem update_then_show_witness :
    ∃ shown locals,
      (app sampleDeps otherId ⟨.GET, ["listings", sampleId.hex], []⟩
        (app sampleDeps otherId ⟨.PUT, ["listings", sampleId.hex], [("listing", .obj villa)]⟩
          (cabinState (some "alice"))).2).1 = .render 200 (.show shown) locals ∧
      shown.listing._id = sampleId.hex ∧
      shown.listing.title = JsVal.get villa "title" ∧
      shown.listing.description = JsVal.get villa "description" ∧
      shown.listing.price = JsVal.get villa "price" ∧
      shown.listing.location = JsVal.get villa "location" ∧
      shown.listing.country = JsVal.get villa "country" :=
  (update_then_show sampleDeps otherId otherId sampleId [("listing", .obj villa)] [] villa
    (cabinState (some "alice")) "alice" cabin rfl
    (by simp [cabinState, cabin]) rfl villa_accepted).1

end Wanderlust
